import Mathlib

/-!
Verification development for the adaptive challenge-solving engine
(`src/agent`: `dom_parser.py`, `solver.py`, `agent_solver.py`, `vision.py`).

The Python sources are shallowly embedded: pure string/DOM computations become
executable Lean functions over explicit data (an HTML document is modelled as a
node tree, i.e. the output of the external BeautifulSoup parser; page state for
the browser-side JS snippets is modelled as records of the fields the snippets
read and write).  Stateful orchestration loops (`_solve_step`,
`_solve_challenge`) are embedded as state-machine programs over an explicit
environment that answers the browser/oracle queries, producing an event trace.
All definitions are executable, so concrete runs are settled by `decide`/`rfl`.
-/
/-! ## String helpers (models of Python/JS primitives used by the sources) -/
/-- `leadsWith pat l`: `pat` is a prefix of `l` (character lists). -/
def leadsWith : List Char → List Char → Bool
  | [], _ => true
  | _ :: _, [] => false
  | p :: ps, c :: cs => p == c && leadsWith ps cs

/-- Model of Python's `pat in l` / JS `l.includes(pat)`: contiguous substring test. -/
def containsSub : List Char → List Char → Bool
  | l, pat =>
    leadsWith pat l ||
      (match l with
       | [] => false
       | _ :: rest => containsSub rest pat)

/-- Substring test on `String`s (both arguments converted to char lists). -/
def strContains (s pat : String) : Bool := containsSub s.data pat.data

/-- ASCII lower-casing of a string, modelling Python `str.lower()` / JS
`toLowerCase()` on the ASCII identifiers and markers used by the sources. -/
def lowerStr (s : String) : List Char := s.data.map Char.toLower

/-- ASCII upper-casing, modelling Python `str.upper()` (step 0 of
`extract_hidden_codes` upper-cases the text before matching `CODE_PATTERN`). -/
def upperChars (l : List Char) : List Char := l.map Char.toUpper

/-- Helper for `dedupFirst`: drop elements already seen. -/
def dedupFirstAux (seen : List String) : List String → List String
  | [] => []
  | c :: rest =>
    if seen.contains c then dedupFirstAux seen rest
    else c :: dedupFirstAux (c :: seen) rest

/-- Keep the first occurrence of each element (the Python source collects the
codes in a `set`; the order of this intermediate list is irrelevant because
the extractor sorts by an injective key before returning). -/
def dedupFirst : List String → List String := dedupFirstAux []

/-- Characters matched by the `[A-Z0-9]` class of `CODE_PATTERN`. -/
def isCodeChar (c : Char) : Bool := ('A' ≤ c && c ≤ 'Z') || c.isDigit

/-- Word characters for the regex `\b` boundary (`[A-Za-z0-9_]`; the sources
only deal with ASCII tokens). -/
def isWordChar (c : Char) : Bool := c.isAlpha || c.isDigit || c == '_'

/-- Does the char list start with a full 6-character token match, i.e. six
`[A-Z0-9]` characters followed by a `\b` boundary (end of string or a
non-word character)?  The `\b` before the match is checked by the caller. -/
def codeHere (l : List Char) : Bool :=
  (l.take 6).length == 6 && (l.take 6).all isCodeChar &&
    (match l.drop 6 with
     | [] => true
     | d :: _ => !isWordChar d)

/-- Scanner for `CODE_PATTERN.findall`: walks the character list, tracking
whether the previous character was a word character (for the leading `\b`);
non-overlapping matches are collected left to right, resuming after each
match, exactly like `re.findall`.  `fuel` bounds the recursion; it is called
with `fuel = length + 1`, which is always sufficient. -/
def findCodesAux : Nat → Bool → List Char → List String
  | 0, _, _ => []
  | _ + 1, _, [] => []
  | fuel + 1, prevWord, c :: rest =>
    if !prevWord && codeHere (c :: rest) then
      String.mk ((c :: rest).take 6) :: findCodesAux fuel true ((c :: rest).drop 6)
    else
      findCodesAux fuel (isWordChar c) rest

/-- `CODE_PATTERN.findall(s.upper())` from `dom_parser.py` line 5 / uses at
lines 70-112: all 6-character `[A-Z0-9]` tokens delimited by `\b`, found after
upper-casing the text. -/
def findCodes (l : List Char) : List String :=
  findCodesAux (l.length + 1) false (upperChars l)

/-! ## HTML document model (`dom_parser.py`)

`extract_hidden_codes` receives raw HTML and parses it with BeautifulSoup.
The parser is external library code, so the embedding starts from its output:
a tree of element / text / comment nodes.  Attribute values are strings
(as in the source's `isinstance(value, str)` guards). -/
inductive HNode where
  | elem (tag : String) (attrs : List (String × String)) (children : List HNode)
  | text (s : String)
  | comment (s : String)

abbrev HDoc := List HNode

mutual

/-- All element nodes of a tree, in document order (`soup.find_all(True)`). -/
def elemsOf : HNode → List HNode
  | .elem t a cs => .elem t a cs :: elemsOfList cs
  | .text _ => []
  | .comment _ => []

def elemsOfList : List HNode → List HNode
  | [] => []
  | n :: rest => elemsOf n ++ elemsOfList rest

end

mutual

/-- All comment bodies of a tree, in document order
(`soup.find_all(string=lambda t: isinstance(t, Comment))`). -/
def commentsOf : HNode → List String
  | .elem _ _ cs => commentsOfList cs
  | .text _ => []
  | .comment s => [s]

def commentsOfList : List HNode → List String
  | [] => []
  | n :: rest => commentsOf n ++ commentsOfList rest

end

mutual

/-- The text pieces below a node, in document order.  Comments are excluded
and so are the contents of `script`/`style` elements, matching BeautifulSoup's
`get_text` behaviour with the `html.parser` builder. -/
def textsOf : HNode → List String
  | .elem t _ cs => if t == "script" || t == "style" then [] else textsOfList cs
  | .text s => [s]
  | .comment _ => []

def textsOfList : List HNode → List String
  | [] => []
  | n :: rest => textsOf n ++ textsOfList rest

end

/-- `soup.get_text(separator=' ')` (line 69): all text pieces joined by `' '`. -/
def docText (doc : HDoc) : String := String.intercalate " " (textsOfList doc)

/-- `elem.get_text()` (lines 86, 90, 146, 150): text pieces joined directly. -/
def elemText (n : HNode) : String := String.join (textsOf n)

/-- Attributes of an element node (empty for text/comment nodes). -/
def attrsOf : HNode → List (String × String)
  | .elem _ a _ => a
  | _ => []

/-- Attribute lookup, modelling `elem.get(name)` / `elem.attrs[name]`. -/
def getAttr (n : HNode) (name : String) : Option String :=
  (attrsOf n).lookup name

/-- Tag of an element node. -/
def tagOf : HNode → String
  | .elem t _ _ => t
  | _ => ""

/-! ## `extract_hidden_codes` (`dom_parser.py` lines 62-171) -/
/-- Python `\s` whitespace class (ASCII). -/
def isSpaceChar (c : Char) : Bool :=
  c == ' ' || c == '\t' || c == '\n' || c == '\r' || c == '\x0b' || c == '\x0c'

/-- Does the style string match `display:\s*none|visibility:\s*hidden` at this
position? -/
def hiddenStyleAt (l : List Char) : Bool :=
  (leadsWith "display:".data l &&
    leadsWith "none".data ((l.drop 8).dropWhile isSpaceChar)) ||
  (leadsWith "visibility:".data l &&
    leadsWith "hidden".data ((l.drop 11).dropWhile isSpaceChar))

/-- `re.search(r'display:\s*none|visibility:\s*hidden', style)` (line 85). -/
def hasHiddenStyle : List Char → Bool
  | [] => false
  | c :: rest => hiddenStyleAt (c :: rest) || hasHiddenStyle rest

/-- Attribute-name prefix test (`key.startswith('data-')` etc.). -/
def attrStarts (pre : String) (k : String) : Bool := leadsWith pre.data k.data

/-- Codes found in `data-*` attribute values (lines 72-76). -/
def dataAttrCodes (doc : HDoc) : List String :=
  (elemsOfList doc).flatMap fun e =>
    (attrsOf e).flatMap fun kv =>
      if attrStarts "data-" kv.1 then findCodes kv.2.data else []

/-- Codes found in `aria-*` attribute values (lines 78-82). -/
def ariaAttrCodes (doc : HDoc) : List String :=
  (elemsOfList doc).flatMap fun e =>
    (attrsOf e).flatMap fun kv =>
      if attrStarts "aria-" kv.1 then findCodes kv.2.data else []

/-- Elements hidden by inline style (line 85). -/
def hiddenStyleCodes (doc : HDoc) : List String :=
  (elemsOfList doc).flatMap fun e =>
    match getAttr e "style" with
    | some s => if hasHiddenStyle s.data then findCodes (elemText e).data else []
    | none => []

/-- Elements carrying a `hidden` attribute (line 89). -/
def hiddenAttrCodes (doc : HDoc) : List String :=
  (elemsOfList doc).flatMap fun e =>
    match getAttr e "hidden" with
    | some _ => findCodes (elemText e).data
    | none => []

/-- Codes found in HTML comments (lines 94-100; the raw-HTML regex backup at
lines 98-100 re-finds the same comment bodies the tree already holds, so the
tree scan covers both collection passes). -/
def commentCodes (doc : HDoc) : List String :=
  (commentsOfList doc).flatMap fun s => findCodes s.data

/-- Codes found in `<meta content=...>` (lines 103-106). -/
def metaCodes (doc : HDoc) : List String :=
  (elemsOfList doc).flatMap fun e =>
    if tagOf e == "meta" then findCodes ((getAttr e "content").getD "").data else []

/-- Codes found in `title` attributes (lines 109-112). -/
def titleCodes (doc : HDoc) : List String :=
  (elemsOfList doc).flatMap fun e =>
    match getAttr e "title" with
    | some s => findCodes s.data
    | none => []

/-- Codes found in the visible text (step 0, lines 67-70). -/
def visibleTextCodes (doc : HDoc) : List String := findCodes (docText doc).data

/-- The raw `codes` set of `extract_hidden_codes` before filtering: union of
all collection passes.  The Python source accumulates into a `set`; the model
keeps the first occurrence of each code (the eventual order is fixed by the
injective sort key, so the set's iteration order is immaterial). -/
def rawCodes (doc : HDoc) : List String :=
  dedupFirst
    (visibleTextCodes doc ++ dataAttrCodes doc ++ ariaAttrCodes doc ++
      hiddenStyleCodes doc ++ hiddenAttrCodes doc ++ commentCodes doc ++
      metaCodes doc ++ titleCodes doc)

/-- The static false-positive blocklist (`dom_parser.py` lines 8-59, verbatim;
the Python literal is a set, and repeated entries collapse the same way a
list-membership test does). -/
def FALSE_POSITIVES : List String :=
  ["DEVICE", "VIEWPORT", "SCRIPT", "BUTTON", "SUBMIT", "ACCEPT",
   "COOKIE", "SCROLL", "HIDDEN", "STYLES", "WINDOW", "SCREEN",
   "CHROME", "WEBKIT", "SAFARI", "MOBILE", "TABLET", "ROBOTS",
   "NOINDEX", "FOLLOW", "NOFOLL", "WIDTHD", "HEIGHT", "MARGIN",
   "FILLER", "MOVING", "LOADED", "REVEAL", "CHOICE", "BEATAE",
   "TEMPOR", "FUGIAT", "ALIQUA", "OPTION", "DIALOG", "ANSWER",
   "SELECT", "DOLORE", "MOLLIT", "VENIAM", "CILLUM", "PLEASE",
   "LABORE", "CONTENT", "SECTION", "HEADER", "FOOTER", "BORDER",
   "COLORS", "IMAGES", "CANCEL", "RETURN", "SUBMIT", "CHANGE",
   "UPDATE", "DELETE", "CREATE", "SEARCH", "FILTER", "NOTICE",
   "ALERTS", "ERRORS", "STATUS", "RESULT", "OUTPUT", "INPUTS",
   "1500MS", "2500MS", "3500MS", "500PX0", "BEFORE", "AFTER0",
   "APPEAR", "STICKY", "NORMAL", "INLINE", "CENTER", "BOTTOM",
   "SHADOW", "CURSOR", "ZINDEX", "EASING", "ROTATE", "SMOOTH",
   "LAYOUT", "RENDER", "EFFECT", "TOGGLE", "HANDLE", "CUSTOM",
   "PIXELS", "POINTS", "WEIGHT", "SOURCE", "TARGET", "ORIGIN",
   "OBJECT", "STRING", "NUMBER", "PROMPT", "ACCESS", "GLOBAL",
   "EXPORT", "IMPORT", "MODULE", "SHOULD", "UNSAFE", "STRICT",
   "SIGNAL", "STREAM", "BUFFER", "PARSED", "THROWS", "FIELDS",
   "CHOOSE", "LABELS", "BUTTON", "CLOSER", "SCROLL", "TRICKS",
   "FAKING", "PRIZES", "MODALS", "RADIOS", "DECOYS", "PROCED",
   "FILLED", "PIECES", "SIGNUP", "BLOCKS", "CHARTS", "THINGS",
   "SAMPLE", "VERIFY", "PARAMS", "EVENTS", "CHECKS", "CODING",
   "SINGLE", "DOUBLE", "EXPAND", "UNIQUE", "RECENT", "ACTIVE",
   "RANDOM", "CLOSED", "OPENED", "MARKED", "CALLED", "PASSED",
   "FAILED", "PAUSED", "LISTED", "VALUED", "STORED", "POSTED",
   "COVERS", "TIMERS", "COUNTS", "YELLOW", "SECCND", "BLACKS",
   "WHITES", "GREENS", "SPACES", "SECOND", "MINUTE", "STARTS",
   "MEMORY", "LOADED", "BLOCKS", "REMAIN", "SIMPLE", "NEEDED",
   "EXTEND", "INFORM", "PICKED", "OPTION", "CHOICE", "CHOSEN",
   "CANVAS", "STROKE", "DRAWIN", "DRAWAN", "LISTEN", "COMPLT",
   "TIMING", "FRAMES", "CAPTUR", "PUZZLE", "ROTATE", "SCROLL",
   "MULTIT", "TABBED", "REVEAL", "HIDDEN", "DECODE", "BASE64",
   "PLAYED", "ESCAPE", "ALMOST", "INSIDE", "SEQUEN", "PROGRE",
   "CLICKM", "SCROLL", "FILLER", "SQUARE", "CIRCLE", "DRAWIN",
   "GESTUR", "SOLVED", "ONNEXT", "STEPGO", "GOBACK", "GONEXT",
   "ONBACK", "ONLOAD", "ONOPEN", "LETSCL", "NTHISI",
   "PROCEE", "ENTER0", "STARTS", "FINISH", "ENOUGH",
   "VERSIO", "NAVIGA", "COMPLE", "CHALLE", "BROWSE",
   "CORECT", "PROCEE", "CORREC", "INCORR", "SUBMIT",
   "AWRONG", "THISIS", "WRONG0", "DECOYC", "FAKECO",
   "NOTTHE", "TRYTHI", "PUZZLE", "SOLVER", "HEREGO",
   "ONETHE", "CWRONG", "1WRONG", "2WRONG", "3WRONG",
   "ONMOVE", "ONCLICK", "ONLOAD", "ONHOVE", "ONFOCS", "ONBLUR",
   "ONMOUS", "ONDRAG", "ONDROP", "ONSCRO", "ONTOUC", "ONPOIN",
   "ONINPU", "ONKEYP", "ONKEYD", "ONKEYU", "ONSUBM", "ONRESE",
   "ONWHEE", "ONCHAN", "ONERRO", "ONPLAY", "ONPAUS", "ONENDE",
   "ABORTE", "CLASST", "CLASSI", "CLASSN",
   "WORKER", "BROKEN", "DETAIL", "ATTEMP", "ACCEPT",
   "IFRAME", "LEVELS", "NESTED", "DEEPER"]

/-- Unit suffixes of the CSS-measurement artifact regex
`^\d+(?:PX|VH|VW|EM|REM|CH|EX|PC|PT|MM|CM|IN|MS|FR)$` (line 122). -/
def CSS_UNITS : List String :=
  ["PX", "VH", "VW", "EM", "REM", "CH", "EX", "PC", "PT", "MM", "CM", "IN", "MS", "FR"]

/-- Digit-prefixed CSS length/time artifact (`6480PX`, `1500MS`, ...).  Since
no unit suffix starts with a digit, splitting at the maximal digit prefix is
exactly the regex's backtracking behaviour. -/
def isCssArtifact (c : String) : Bool :=
  let ds := c.data.takeWhile Char.isDigit
  !ds.isEmpty && CSS_UNITS.contains (String.mk (c.data.drop ds.length))

/-- `c.isdigit()` (line 125). -/
def isPureDigits (c : String) : Bool := !c.data.isEmpty && c.data.all Char.isDigit

/-- `_false_suffixes` of the numbered-word filter (lines 129-130). -/
def NUM_SUFFIXES : List String :=
  ["THIS", "THAT", "WHAT", "STEP", "ITEM", "TASK", "PAGE", "FROM"]

/-- `re.match(r'^\d{2}', c) and c[2:] in _false_suffixes` (line 130). -/
def isNumberedArtifact (c : String) : Bool :=
  match c.data with
  | a :: b :: rest => a.isDigit && b.isDigit && NUM_SUFFIXES.contains (String.mk rest)
  | _ => false

/-- The four filtering passes of lines 119-130 combined. -/
def passesFilters (c : String) : Bool :=
  !FALSE_POSITIVES.contains c && !isCssArtifact c && !isPureDigits c &&
    !isNumberedArtifact c

/-- The filtered `codes` set (lines 119-130). -/
def filteredCodes (doc : HDoc) : List String :=
  (rawCodes doc).filter passesFilters

/-- Sources re-scanned for the `high_priority` set (lines 133-152): `data-*`
and `aria-*` attributes, comments, style-hidden and `hidden`-attribute
elements.  The source additionally intersects with the filtered `codes` set
(`if c in codes`); the ranking below only applies this predicate to members
of `filteredCodes`, for which that intersection is the identity. -/
def highPrioritySources (doc : HDoc) : List String :=
  dataAttrCodes doc ++ ariaAttrCodes doc ++ commentCodes doc ++
    hiddenStyleCodes doc ++ hiddenAttrCodes doc

/-- `c in high_priority` for codes that survived filtering. -/
def isHighPriority (doc : HDoc) (c : String) : Bool :=
  (highPrioritySources doc).contains c

/-- `any(ch.isdigit() for ch in c) and any(ch.isalpha() for ch in c)`. -/
def isMixed (c : String) : Bool :=
  c.data.any Char.isDigit && c.data.any Char.isAlpha

/-- `False < True` on booleans (Python tuple comparison of `not is_hp` etc.). -/
def boolLtB (a b : Bool) : Bool := !a && b

/-- The sort key comparison of `sort_key` (lines 155-160): lexicographic on
`(not is_hp, not is_mixed, c)`. -/
def rankLe (doc : HDoc) (a b : String) : Bool :=
  let ha := !isHighPriority doc a
  let hb := !isHighPriority doc b
  let ma := !isMixed a
  let mb := !isMixed b
  boolLtB ha hb || (ha == hb && (boolLtB ma mb || (ma == mb && decide (a ≤ b))))

/-- `extract_hidden_codes` (lines 62-171): collect, filter, rank, cap at 15.
Python's `sorted` and the insertion sort agree because the key is injective
(its third component is the code itself). -/
def extract_hidden_codes (doc : HDoc) : List String :=
  (List.insertionSort (fun a b => rankLe doc a b = true) (filteredCodes doc)).take 15

/-- The document used by the ranking counterexample: a `<meta content="ABCDEF">`
tag (a hidden source in the claim's list) next to visible text containing
`AB12CD` (a visible-only token). -/
def cexDocC3 : HDoc :=
  [.elem "meta" [("content", "ABCDEF")] [], .elem "p" [] [.text "AB12CD"]]

/-! ## `_check_progress` (`solver.py` lines 3813-3836, `agent_solver.py`
lines 580-590; the two functions are line-for-line identical in logic) -/
/-- Decimal digit character for `d % 10`. -/
def decDigit : Nat → Char
  | 0 => '0' | 1 => '1' | 2 => '2' | 3 => '3' | 4 => '4'
  | 5 => '5' | 6 => '6' | 7 => '7' | 8 => '8' | _ => '9'

/-- Fuelled decimal rendering (`str(n)` in the f-strings building
`step{challenge_num + 1}` etc.); the fuel `n + 1` always suffices. -/
def natDecAux : Nat → Nat → List Char
  | 0, _ => []
  | fuel + 1, n =>
    if n < 10 then [decDigit n] else natDecAux fuel (n / 10) ++ [decDigit (n % 10)]

/-- Decimal rendering of a natural number, most significant digit first. -/
def natDecRepr (n : Nat) : List Char := natDecAux (n + 1) n

/-- Numeric value of a digit character. -/
def digitVal (c : Char) : Nat := c.toNat - 48

/-- `int(digits)`: value of a decimal digit string. -/
def parseDec (ds : List Char) : Nat := ds.foldl (fun a c => 10 * a + digitVal c) 0

/-- One attempted match of `step, optional '/' or '-', digits` at the start of `l`: the literal
`step`, an optional single `/` or `-` separator, then a non-empty maximal
digit run (regex backtracking gives up on the position if the separator is
present but not followed by a digit, because no digit can take its place). -/
def stepSepDigits : List Char → List Char
  | [] => []
  | c :: tl =>
    if c == '/' || c == '-' then tl.takeWhile Char.isDigit
    else (c :: tl).takeWhile Char.isDigit

def stepNumAt (l : List Char) : Option Nat :=
  if leadsWith "step".data l then
    if (stepSepDigits (l.drop 4)).isEmpty then none
    else some (parseDec (stepSepDigits (l.drop 4)))
  else none

/-- All matches of `step, optional '/' or '-', digits`, by starting position, left to right. -/
def stepScan : List Char → List Nat
  | [] => []
  | c :: rest => (stepNumAt (c :: rest)).toList ++ stepScan rest

/-- `re.search(r'step, optional '/' or '-', digits', url_lower)` with `int(match.group(1))`:
the value of the leftmost match, if any. -/
def firstStepNum (l : List Char) : Option Nat := (stepScan l).head?

/-- `'complete' in url_lower or 'finish' in url_lower or 'done' in url_lower`. -/
def completionMarker (ul : List Char) : Bool :=
  containsSub ul "complete".data || containsSub ul "finish".data ||
    containsSub ul "done".data

/-- `_check_progress(url, challenge_num)`: substring checks for
`step{n+1}` / `step-{n+1}` / `step/{n+1}`, the final-step completion markers,
then the general step-number regex. -/
def check_progress (url : String) (n : Nat) : Bool :=
  if containsSub (lowerStr url) ("step".data ++ natDecRepr (n + 1)) then true
  else if containsSub (lowerStr url) ("step-".data ++ natDecRepr (n + 1)) then true
  else if containsSub (lowerStr url) ("step/".data ++ natDecRepr (n + 1)) then true
  else if n == 30 && completionMarker (lowerStr url) then true
  else
    match firstStepNum (lowerStr url) with
    | some m => decide (m > n)
    | none => false

/-- The claim's specification of the progress oracle, taking "the step number
embedded in u" to be the leftmost `step, optional '/' or '-', digits` match — the reading used by
the code's own general branch (`re.search`).  Written from the spec's words,
for comparison with `check_progress`. -/
def specAdvancedFirst (u : String) (n : Nat) : Bool :=
  (match firstStepNum (lowerStr u) with
   | some m => decide (m > n)
   | none => false) ||
  (n == 30 && completionMarker (lowerStr u))

/-- The claim's specification under the alternative reading where "the step
number embedded in u exceeds n" means some embedded step number exceeds `n`.
Also written from the spec's words, for comparison with `check_progress`. -/
def specAdvancedSome (u : String) (n : Nat) : Bool :=
  (stepScan (lowerStr u)).any (fun m => decide (m > n)) ||
  (n == 30 && completionMarker (lowerStr u))

/-! ## Submission Protocol button choosers

`_fill_and_submit` (`agent_solver.py` lines 672-748) and `_try_fill_code`
(`solver.py` lines 3838-3923) pick the control to click with in-page JS.  A
button is modelled by the three fields the snippets read: its text content,
its `disabled` flag and its `type` property.  The container walk
(`input.parentElement`, up to 4 levels) is modelled by the list of button
lists the successive `container.querySelectorAll('button')` calls return,
and the document-wide fallback by the full button list. -/
structure BtnM where
  label : String
  disabled : Bool
  btype : String
deriving DecidableEq, Repr

/-- JS `String.prototype.trim()` on the ASCII whitespace the pages use. -/
def jsTrim (s : String) : String :=
  String.mk (((s.data.dropWhile isSpaceChar).reverse.dropWhile isSpaceChar).reverse)

/-- The `TRAPS` decoy-phrase list of `_fill_and_submit` (lines 700-703). -/
def TRAPS : List String :=
  ["proceed", "continue", "next step", "next page", "next section",
   "move on", "go forward", "keep going", "advance", "continue reading",
   "continue journey", "click here", "proceed forward"]

/-- `isTrap(t)`: `TRAPS.some(w => t.toLowerCase().includes(w))`. -/
def isTrapLabel (t : String) : Bool :=
  TRAPS.any fun w => containsSub (lowerStr t) w.data

/-- The submit-likeness test of the inner loop (line 713):
`btn.type === 'submit' || t.includes('Submit') || t.includes('Go') ||
t === '→' || t.length <= 2` where `t` is the trimmed label. -/
def submitLike (b : BtnM) : Bool :=
  b.btype == "submit" || strContains (jsTrim b.label) "Submit" ||
    strContains (jsTrim b.label) "Go" || jsTrim b.label == "→" ||
    decide ((jsTrim b.label).length ≤ 2)

/-- Eligibility in the per-container loop (lines 710-716): enabled, not
decoy-labelled, submit-like. -/
def eligibleBtn (b : BtnM) : Bool :=
  !b.disabled && !isTrapLabel (jsTrim b.label) && submitLike b

/-- A safe button for the sole-non-trap-button rule (lines 719-720). -/
def safeBtn (b : BtnM) : Bool := !b.disabled && !isTrapLabel (jsTrim b.label)

/-- The global fallback (lines 723-726): exact `Submit` / `Submit Code`. -/
def fallbackSubmit (allB : List BtnM) : Option BtnM :=
  allB.find? fun b =>
    (jsTrim b.label == "Submit" || jsTrim b.label == "Submit Code") && !b.disabled

/-- The container walk of `_fill_and_submit`'s click snippet: for each of the
(up to 4) ancestor containers, click the first enabled non-trap submit-like
button, else the sole safe button; fall back to an exact `Submit` label. -/
def chooseButtonWalk : List (List BtnM) → List BtnM → Option BtnM
  | [], allB => fallbackSubmit allB
  | cont :: rest, allB =>
    match cont.find? eligibleBtn with
    | some b => some b
    | none =>
      match cont.filter safeBtn with
      | [b] => some b
      | _ => chooseButtonWalk rest allB

/-- `_fill_and_submit`'s button choice (`agent_solver.py` lines 705-727). -/
def fill_and_submit_choice (containers : List (List BtnM)) (allB : List BtnM) :
    Option BtnM :=
  chooseButtonWalk (containers.take 4) allB

/-- `_try_fill_code`'s button choice (`solver.py` lines 3884-3901): the first
`button[type="submit"]` regardless of its label (clicked only if enabled),
else the first enabled button whose text contains `Submit`. -/
def try_fill_code_choice (btns : List BtnM) : Option BtnM :=
  match btns.find? (fun b => b.btype == "submit") with
  | some b => if b.disabled then none else some b
  | none => btns.find? fun b => strContains b.label "Submit" && !b.disabled

/-! ## `_clear_popups` (`agent_solver.py` lines 592-670)

The JS snippet walks every `.fixed` / `[class*="absolute"]` / `[class*="z-"]`
element, counts each clearing action and neutralizes popups by clicking their
buttons or overwriting inline style (`hide`).  An element is modelled by the
fields the snippet reads (`core`: class attribute, text content, button
labels, inline background colour, presence of a radio input) and the fields
it writes (`style`).  Button `.click()` calls reach the host application,
which by the claim's premise leaves the page content unchanged, so clicks do
not alter the model state.  The snippet interleaves counting and styling per
element; since every condition reads only `core` fields and the mutations
touch only `style` fields, counting and styling are modelled as separate
passes with identical observable behaviour. -/
structure OvCore where
  className : String
  text : String
  buttonLabels : List String
  bgColor : String
  hasRadio : Bool
deriving DecidableEq, Repr

structure OvStyle where
  display : String
  pointerEvents : String
  visibility : String
  zIndex : String
deriving DecidableEq, Repr

structure Overlay where
  core : OvCore
  style : OvStyle
deriving DecidableEq, Repr

/-- Class tokens of the class attribute (for `.fixed` and
`classList.contains`). -/
def splitOnSpaceAux : List Char → List Char → List String
  | acc, [] => [String.mk acc.reverse]
  | acc, c :: rest =>
    if c == ' ' then String.mk acc.reverse :: splitOnSpaceAux [] rest
    else splitOnSpaceAux (c :: acc) rest

def classTokens (core : OvCore) : List String := splitOnSpaceAux [] core.className.data

/-- `document.querySelectorAll('.fixed, [class*="absolute"], [class*="z-"]')`. -/
def matchesOverlaySel (core : OvCore) : Bool :=
  (classTokens core).contains "fixed" || strContains core.className "absolute" ||
    strContains core.className "z-"

/-- `document.querySelectorAll('.fixed')` (second pass). -/
def isFixedSel (core : OvCore) : Bool := (classTokens core).contains "fixed"

/-- `text.includes(p)` on the element's text content. -/
def txtHas (core : OvCore) (p : String) : Bool := strContains core.text p

/-- Branch 1 (lines 606-614): popups announcing a fake button and a real one;
every enabled-looking button whose lower-cased trimmed label avoids `fake`
and has length in (0, 30) is clicked and counted. -/
def fakeRealClicks (core : OvCore) : Nat :=
  if txtHas core "fake" && txtHas core "real one" then
    core.buttonLabels.countP fun bl =>
      !containsSub (lowerStr (jsTrim bl)) "fake".data &&
        decide (0 < (jsTrim bl).length) && decide ((jsTrim bl).length < 30)
  else 0

/-- Branch 2 (lines 617-622): popups where every close button is fake. -/
def allFakeHide (core : OvCore) : Bool :=
  txtHas core "another way to close" ||
    (txtHas core "close button" && txtHas core "fake" && !txtHas core "real one") ||
    txtHas core "won a prize" || txtHas core "amazing deals"

/-- Branch 3 (lines 625-628): "That close button is fake!" warnings. -/
def fakeWarnHide (core : OvCore) : Bool := txtHas core "That close button is fake"

/-- Branch 4 (lines 631-634): cookie consent with an `Accept` button. -/
def cookieClicks (core : OvCore) : Nat :=
  if txtHas core "Cookie" || txtHas core "cookie" then
    if core.buttonLabels.any (fun bl => strContains bl "Accept") then 1 else 0
  else 0

/-- Branch 5 (lines 637-642): limited-time offers; click everything, hide. -/
def offerHide (core : OvCore) : Bool :=
  txtHas core "Limited time offer" || txtHas core "Click X to close" ||
    txtHas core "popup message"

/-- Branch 6 (lines 645-648): "Click the button to dismiss" modals. -/
def dismissClicks (core : OvCore) : Nat :=
  if (txtHas core "Click the button to dismiss" ||
      txtHas core "interact with this modal") && !core.buttonLabels.isEmpty
  then 1 else 0

/-- Branch 7 (lines 651-654): "Wrong Button" modals. -/
def wrongClicks (core : OvCore) : Nat :=
  if (txtHas core "Wrong Button" || txtHas core "Try Again") &&
      !core.buttonLabels.isEmpty
  then 1 else 0

def boolNat (b : Bool) : Nat := if b then 1 else 0

/-- Items counted for one element in the first pass. -/
def ovCount (core : OvCore) : Nat :=
  if matchesOverlaySel core then
    fakeRealClicks core + boolNat (allFakeHide core) + boolNat (fakeWarnHide core) +
      cookieClicks core + boolNat (offerHide core) + dismissClicks core +
      wrongClicks core
  else 0

/-- Does the first pass `hide(el)` this element (branches 2, 3, 5)? -/
def ovHide (core : OvCore) : Bool :=
  matchesOverlaySel core && (allFakeHide core || fakeWarnHide core || offerHide core)

/-- The style written by `hide` (lines 596-601). -/
def hideStyle : OvStyle :=
  { display := "none", pointerEvents := "none", visibility := "hidden", zIndex := "-1" }

def ovStyle1 (core : OvCore) (st : OvStyle) : OvStyle :=
  if ovHide core then hideStyle else st

/-- First-pass effect on one element. -/
def ovApply (el : Overlay) : Overlay := ⟨el.core, ovStyle1 el.core el.style⟩

/-- Second pass condition (lines 658-666): `.fixed` overlays with a
`bg-black/70` class or an `rgba(0, 0, 0` inline background, not mentioning
`Step` and without a radio input. -/
def pass2Fire (core : OvCore) : Bool :=
  isFixedSel core &&
    ((classTokens core).contains "bg-black/70" ||
      strContains core.bgColor "rgba(0, 0, 0") &&
    (!txtHas core "Step" && !core.hasRadio)

def pass2Style (core : OvCore) (st : OvStyle) : OvStyle :=
  if pass2Fire core then { st with pointerEvents := "none" } else st

/-- Second-pass effect on one element. -/
def pass2Apply (el : Overlay) : Overlay := ⟨el.core, pass2Style el.core el.style⟩

/-- `_clear_popups`: count and neutralize, returning `(cleared, new page)`. -/
def clear_popups (page : List Overlay) : Nat × List Overlay :=
  let c1 := (page.map (fun el => ovCount el.core)).sum
  let p1 := page.map ovApply
  let c2 := (p1.map (fun el => boolNat (pass2Fire el.core))).sum
  (c1 + c2, p1.map pass2Apply)

/-- One element's combined effect of both passes. -/
def stepOv (el : Overlay) : Overlay := pass2Apply (ovApply el)

/-- The page of the C6 counterexample: a single `.fixed` element whose text
contains `won a prize`. -/
def cexPopupPage : List Overlay :=
  [⟨⟨"fixed", "You won a prize!", [], "", false⟩, ⟨"block", "auto", "visible", "10"⟩⟩]

/-! ## `analyze_page` response parsing (`vision.py` lines 133-172)

The oracle reply is a string; `analyze_page` strips markdown fences, runs
`json.loads`, retries on a brace-balanced prefix, and validates the object
into an `ActionResponse`; any failure is caught and replaced by a no-op
`wait` action.  The JSON parser below is an executable model of `json.loads`
on standard JSON values (fuelled recursion, called with sufficient fuel);
pydantic's validation of the six fields is modelled by `validateAction`. -/
inductive JVal where
  | jnull
  | jbool (b : Bool)
  | jnum (lexeme : String)
  | jstr (s : String)
  | jarr (xs : List JVal)
  | jobj (fields : List (String × JVal))

/-- Hex digit value, if any. -/
def hexVal (c : Char) : Option Nat :=
  if '0' ≤ c && c ≤ '9' then some (c.toNat - 48)
  else if 'a' ≤ c && c ≤ 'f' then some (c.toNat - 87)
  else if 'A' ≤ c && c ≤ 'F' then some (c.toNat - 55)
  else none

/-- JSON string body (after the opening quote), with escape handling. -/
def parseStrBody : Nat → List Char → List Char → Option (String × List Char)
  | 0, _, _ => none
  | _ + 1, _, [] => none
  | fuel + 1, acc, c :: rest =>
    if c == '"' then some (String.mk acc.reverse, rest)
    else if c == '\\' then
      match rest with
      | [] => none
      | e :: rest2 =>
        if e == '"' || e == '\\' || e == '/' then parseStrBody fuel (e :: acc) rest2
        else if e == 'n' then parseStrBody fuel ('\n' :: acc) rest2
        else if e == 't' then parseStrBody fuel ('\t' :: acc) rest2
        else if e == 'r' then parseStrBody fuel ('\r' :: acc) rest2
        else if e == 'b' then parseStrBody fuel ('\x08' :: acc) rest2
        else if e == 'f' then parseStrBody fuel ('\x0c' :: acc) rest2
        else if e == 'u' then
          match rest2 with
          | h1 :: h2 :: h3 :: h4 :: rest3 =>
            match hexVal h1, hexVal h2, hexVal h3, hexVal h4 with
            | some a, some b, some c', some d =>
              parseStrBody fuel
                (Char.ofNat (((a * 16 + b) * 16 + c') * 16 + d) :: acc) rest3
            | _, _, _, _ => none
          | _ => none
        else none
    else parseStrBody fuel (c :: acc) rest

/-- JSON number lexeme: `-?(0|[1-9]digits)(.digits)?([eE][+-]?digits)?`. -/
def lexNum (l : List Char) : Option (String × List Char) :=
  let (sign, l1) := match l with
    | '-' :: r => (['-'], r)
    | _ => (([] : List Char), l)
  match l1 with
  | [] => none
  | c :: r =>
    if !c.isDigit then none
    else
      let (ip, r1) := if c == '0' then ([c], r) else l1.span Char.isDigit
      let (fp, r2) := match r1 with
        | '.' :: d :: r' =>
          if d.isDigit then
            let (ds, r'') := (d :: r').span Char.isDigit
            ('.' :: ds, r'')
          else ([], r1)
        | _ => ([], r1)
      let (ep, r3) := match r2 with
        | e :: rest =>
          if e == 'e' || e == 'E' then
            match rest with
            | s :: d :: r' =>
              if (s == '+' || s == '-') && d.isDigit then
                let (ds, r'') := (d :: r').span Char.isDigit
                (e :: s :: ds, r'')
              else if s.isDigit then
                let (ds, r'') := (s :: d :: r').span Char.isDigit
                (e :: ds, r'')
              else ([], r2)
            | [s] =>
              if s.isDigit then ([e, s], ([] : List Char)) else ([], r2)
            | [] => ([], r2)
          else ([], r2)
        | [] => ([], r2)
      if fp.isEmpty && ep.isEmpty then some (String.mk (sign ++ ip), r1)
      else some (String.mk (sign ++ ip ++ fp ++ ep), r3)

/-- Parsing jobs for the single fuelled JSON recursion (a value, the fields
of an object after `\x7b`, or the elements of an array after `[`). -/
inductive PJob where
  | val (l : List Char)
  | fields (l : List Char) (acc : List (String × JVal)) (first : Bool)
  | elems (l : List Char) (acc : List JVal) (first : Bool)

inductive PRes where
  | v (x : JVal) (rest : List Char)
  | fs (xs : List (String × JVal)) (rest : List Char)
  | es (xs : List JVal) (rest : List Char)

def skipWs (l : List Char) : List Char := l.dropWhile isSpaceChar

def parseF : Nat → PJob → Option PRes
  | 0, _ => none
  | fuel + 1, .val l =>
    match skipWs l with
    | [] => none
    | c :: rest =>
      if c == '\x7b' then
        match parseF fuel (.fields rest [] true) with
        | some (.fs xs r) => some (.v (.jobj xs) r)
        | _ => none
      else if c == '[' then
        match parseF fuel (.elems rest [] true) with
        | some (.es xs r) => some (.v (.jarr xs) r)
        | _ => none
      else if c == '"' then
        match parseStrBody (rest.length + 1) [] rest with
        | some (s, r) => some (.v (.jstr s) r)
        | none => none
      else if leadsWith "true".data (c :: rest) then
        some (.v (.jbool true) ((c :: rest).drop 4))
      else if leadsWith "false".data (c :: rest) then
        some (.v (.jbool false) ((c :: rest).drop 5))
      else if leadsWith "null".data (c :: rest) then
        some (.v .jnull ((c :: rest).drop 4))
      else
        match lexNum (c :: rest) with
        | some (s, r) => some (.v (.jnum s) r)
        | none => none
  | fuel + 1, .fields l acc first =>
    match skipWs l with
    | [] => none
    | c :: rest =>
      if c == '\x7d' && first then some (.fs acc.reverse rest)
      else
        match (if first then skipWs (c :: rest)
               else if c == ',' then skipWs rest else ['!']) with
        | '"' :: rest2 =>
          match parseStrBody (rest2.length + 1) [] rest2 with
          | some (k, r1) =>
            match skipWs r1 with
            | ':' :: r2 =>
              match parseF fuel (.val r2) with
              | some (.v v r3) =>
                match skipWs r3 with
                | '\x7d' :: r4 => some (.fs (((k, v) :: acc).reverse) r4)
                | ',' :: _ =>
                  parseF fuel (.fields (skipWs r3) ((k, v) :: acc) false)
                | _ => none
              | _ => none
            | _ => none
          | none => none
        | _ => none
  | fuel + 1, .elems l acc first =>
    match skipWs l with
    | [] => none
    | c :: rest =>
      if c == ']' && first then some (.es acc.reverse rest)
      else
        match (if first then some (skipWs (c :: rest))
               else if c == ',' then some (skipWs rest) else none) with
        | some l2 =>
          match parseF fuel (.val l2) with
          | some (.v v r1) =>
            match skipWs r1 with
            | ']' :: r2 => some (.es ((v :: acc).reverse) r2)
            | ',' :: _ => parseF fuel (.elems (skipWs r1) (v :: acc) false)
            | _ => none
          | _ => none
        | none => none

/-- `json.loads`: a single JSON value consuming the whole input. -/
def jsonLoadsFull (t : String) : Option JVal :=
  match parseF (t.length + 1) (.val t.data) with
  | some (.v v rest) => if (skipWs rest).isEmpty then some v else none
  | _ => none

/-- `ActionType` (`vision.py` lines 10-18). -/
inductive ActionType where
  | click | typeText | scroll | wait | closePopup | extractCode | navigate | hover
deriving DecidableEq, Repr

/-- Enum coercion from the JSON string value (pydantic str-enum). -/
def actionTypeOfString (s : String) : Option ActionType :=
  if s == "click" then some .click
  else if s == "type" then some .typeText
  else if s == "scroll" then some .scroll
  else if s == "wait" then some .wait
  else if s == "close_popup" then some .closePopup
  else if s == "extract_code" then some .extractCode
  else if s == "navigate" then some .navigate
  else if s == "hover" then some .hover
  else none

/-- `ActionResponse` (`vision.py` lines 21-27).  The float `confidence` is
kept as its decimal lexeme: no logic in the repository reads its numeric
value, and floating point itself is outside the embedding. -/
structure ActionResponse where
  action_type : ActionType
  target_selector : Option String
  value : Option String
  reasoning : String
  code_found : Option String
  confidence : String
deriving DecidableEq, Repr

/-- Field access on a parsed JSON object; for duplicate keys `json.loads`
keeps the last occurrence, hence the reversed lookup. -/
def getField (fields : List (String × JVal)) (name : String) : Option JVal :=
  fields.reverse.lookup name

/-- An optional string field (`Optional[str] = None`): absent or `null` maps
to `none`; a string is accepted; anything else is a validation error. -/
def optStrField (fields : List (String × JVal)) (name : String) :
    Option (Option String) :=
  match getField fields name with
  | none => some none
  | some .jnull => some none
  | some (.jstr s) => some (some s)
  | some _ => none

/-- Does the string consist of exactly one numeric lexeme (after trimming)?
Used for pydantic's lax string-to-float coercion of `confidence`. -/
def numLexeme (s : String) : Bool :=
  match lexNum (jsTrim s).data with
  | some (_, []) => true
  | _ => false

/-- The `confidence` field: numbers and numeric strings validate; the
default is `0.0`. -/
def confidenceField (fields : List (String × JVal)) : Option String :=
  match getField fields "confidence" with
  | none => some "0.0"
  | some (.jnum s) => some s
  | some (.jstr s) => if numLexeme s then some s else none
  | some _ => none

/-- `ActionResponse(**data)`: the object must provide a valid `action_type`
and a string `reasoning`; the optional fields must be strings or null;
unknown keys are ignored (pydantic default). -/
def validateAction : JVal → Option ActionResponse
  | .jobj fields =>
    match getField fields "action_type" with
    | some (.jstr s) =>
      match actionTypeOfString s with
      | some at' =>
        match getField fields "reasoning" with
        | some (.jstr r) =>
          match optStrField fields "target_selector", optStrField fields "value",
              optStrField fields "code_found", confidenceField fields with
          | some ts, some v, some cf, some conf =>
            some ⟨at', ts, v, r, cf, conf⟩
          | _, _, _, _ => none
        | _ => none
      | none => none
    | _ => none
  | _ => none

/-- `text.split("\n", 1)[1]`: drop the fence line; raises (models as `none`)
when the text has no newline. -/
def dropFirstLine (l : List Char) : Option (List Char) :=
  match l.dropWhile (fun c => c != '\n') with
  | [] => none
  | _ :: rest => some rest

/-- The prefix before the last occurrence of `pat`, if `pat` occurs. -/
def beforeLast (pat : List Char) : List Char → Option (List Char)
  | [] => none
  | c :: rest =>
    match beforeLast pat rest with
    | some pre => some (c :: pre)
    | none => if leadsWith pat (c :: rest) then some [] else none

/-- Markdown-fence stripping (`vision.py` lines 135-141): strip, and when the
text starts with a fence, drop the fence line and cut at the last fence. -/
def stripFences (raw : String) : Option String :=
  let t := jsTrim raw
  if leadsWith "```".data t.data then
    match dropFirstLine t.data with
    | none => none
    | some rest =>
      some (jsTrim (String.mk ((beforeLast "```".data rest).getD rest)))
  else some t

/-- The naive brace matcher of lines 146-156 (it does not skip braces inside
string literals, exactly like the source): the index one past the `\x7d`
that first returns the running depth to zero. -/
def braceEnd : List Char → Int → Nat → Option Nat
  | [], _, _ => none
  | c :: rest, depth, i =>
    if c == '\x7b' then braceEnd rest (depth + 1) (i + 1)
    else if c == '\x7d' then
      if depth - 1 == 0 then some (i + 1) else braceEnd rest (depth - 1) (i + 1)
    else braceEnd rest depth (i + 1)

/-- `text[:end_idx]` when the brace scan found a balanced prefix. -/
def braceTruncate (t : List Char) : Option (List Char) :=
  (braceEnd t 0 0).map fun e => t.take e

/-- The whole parse of `analyze_page`'s `try` block: fence stripping, direct
`json.loads`, brace-truncated retry only when the direct parse raised, then
`ActionResponse(**data)` validation.  `none` models any raised exception. -/
def analyze_parse (raw : String) : Option ActionResponse :=
  match stripFences raw with
  | none => none
  | some t =>
    match (match jsonLoadsFull t with
           | some v => some v
           | none => (braceTruncate t.data).bind fun pre =>
               jsonLoadsFull (String.mk pre)) with
    | some v => validateAction v
    | none => none

/-- `analyze_page`'s result action: the parsed action, or the `except`
fallback `ActionResponse(action_type=ActionType.WAIT, reasoning=..., 
confidence=0.0)` (lines 163-170). -/
def analyze_page_action (raw : String) : ActionResponse :=
  match analyze_parse raw with
  | some a => a
  | none =>
    ⟨.wait, none, none, "Failed to parse response", none, "0.0"⟩

/-! ## The agent dispatcher `_solve_step` (`agent_solver.py` lines 61-567)

The per-step loop is embedded as an explicit state machine.  The browser and
the oracle are an environment of answer streams, one per query kind, each
consumed through its own counter; handlers that neither submit codes nor call
the oracle are abstracted into single environment queries (`flags`, `nums`)
plus a `handler` trace event, keeping the submission- and oracle-relevant
control flow (guards, failure memory, cadences) exact.  The run produces an
event trace: progress checks, popup clearing, Submission-Protocol invocations
(`protoSubmit` = `_fill_and_submit`), failure-memory appends (`recordFail`),
code entries outside the Submission Protocol (`directFill`: the trap-button
typing, the scroll-navigation input fill and the Enter retries), oracle calls
and action executions.  `stateReset` (navigate away and back) is in the event
alphabet for the state-reset claims; `_solve_step` itself never emits it —
the source contains no such navigation. -/
inductive AgEvent where
  | progress (ok : Bool)
  | clearPop
  | protoSubmit (code : String) (ok : Bool)
  | recordFail (code : String)
  | directFill (code : String)
  | oracleCall (attempt : Nat)
  | execAct
  | stateReset
  | handler (name : String)
deriving DecidableEq, Repr

structure AgEnv where
  urls : Nat → String
  codes : Nat → List String
  subOk : Nat → Bool
  flags : Nat → Bool
  maths : Nat → Option String
  extras : Nat → List String
  nums : Nat → Nat
  oracleCode : Nat → Option String

structure AgSt where
  env : AgEnv
  tUrl : Nat
  tCodes : Nat
  tSub : Nat
  tFlag : Nat
  tMath : Nat
  tExtra : Nat
  tNum : Nat
  tOra : Nat
  trace : List AgEvent
  failed : List String

def pushEF (e : AgEvent) (s : AgSt) : AgSt := { s with trace := s.trace ++ [e] }

def askUrlF (s : AgSt) : String × AgSt :=
  (s.env.urls s.tUrl, { s with tUrl := s.tUrl + 1 })

def askCodesF (s : AgSt) : List String × AgSt :=
  (s.env.codes s.tCodes, { s with tCodes := s.tCodes + 1 })

def askSubF (s : AgSt) : Bool × AgSt :=
  (s.env.subOk s.tSub, { s with tSub := s.tSub + 1 })

def askFlagF (s : AgSt) : Bool × AgSt :=
  (s.env.flags s.tFlag, { s with tFlag := s.tFlag + 1 })

def askMathF (s : AgSt) : Option String × AgSt :=
  (s.env.maths s.tMath, { s with tMath := s.tMath + 1 })

def askExtraF (s : AgSt) : List String × AgSt :=
  (s.env.extras s.tExtra, { s with tExtra := s.tExtra + 1 })

def askNumF (s : AgSt) : Nat × AgSt :=
  (s.env.nums s.tNum, { s with tNum := s.tNum + 1 })

def askOraF (s : AgSt) : Option String × AgSt :=
  (s.env.oracleCode s.tOra, { s with tOra := s.tOra + 1 })

/-- `self._check_progress(await self.browser.get_url(), step)`. -/
def checkProgF (step : Nat) (s : AgSt) : Bool × AgSt :=
  let (u, s1) := askUrlF s
  (check_progress u step, pushEF (.progress (check_progress u step)) s1)

/-- One `_fill_and_submit(code, step)` invocation. -/
def fillSubmitF (code : String) (s : AgSt) : Bool × AgSt :=
  let (ok, s1) := askSubF s
  (ok, pushEF (.protoSubmit code ok) s1)

/-- `failed_codes.append(code)`. -/
def recordFailF (code : String) (s : AgSt) : AgSt :=
  { s with failed := s.failed ++ [code], trace := s.trace ++ [.recordFail code] }

/-- The recurring guarded submission loop of `_solve_step`
(e.g. lines 137-144): skip codes in the failure memory, submit, append to
the failure memory on failure. -/
def tryCodesF (step : Nat) : List String → AgSt → Bool × AgSt
  | [], s => (false, s)
  | c :: rest, s =>
    if s.failed.contains c then tryCodesF step rest s
    else
      let (ok, s1) := fillSubmitF c s
      if ok then (true, s1) else tryCodesF step rest (recordFailF c s1)

/-- The unguarded submission loop used inside `_try_scroll_to_find_nav`
(lines 1260-1264, 1620-1624, 1731-1736): no failure-memory checks or
appends; the caller pre-filters the list. -/
def submitSeqF : List String → AgSt → Bool × AgSt
  | [], s => (false, s)
  | c :: rest, s =>
    let (ok, s1) := fillSubmitF c s
    if ok then (true, s1) else submitSeqF rest s1

/-- The `LATIN` filler-word set of `_try_scroll_to_find_nav` (lines
1246-1259 and 1712-1725). -/
def LATIN : List String :=
  ["BEATAE", "LABORE", "DOLORE", "VENIAM", "NOSTRU", "ALIQUA", "EXERCI",
   "TEMPOR", "INCIDI", "LABORI", "MAGNAM", "VOLUPT", "SAPIEN", "FUGIAT",
   "COMMOD", "EXCEPT", "OFFICI", "MOLLIT", "PROIDE", "REPUDI", "FILLER",
   "SCROLL", "HIDDEN", "BUTTON", "SUBMIT", "OPTION", "CHOICE", "REVEAL",
   "PUZZLE", "CANVAS", "STROKE", "SECOND", "MEMORY", "LOADED", "BLOCKS",
   "CHANGE", "DELETE", "CREATE", "SEARCH", "FILTER", "NOTICE", "STATUS",
   "RESULT", "OUTPUT", "INPUTS", "BEFORE", "LAYOUT", "RENDER", "EFFECT",
   "TOGGLE", "HANDLE", "CUSTOM", "STRING", "NUMBER", "PROMPT", "GLOBAL",
   "MODULE", "SHOULD", "COOKIE", "MOVING", "FILLED", "PIECES", "VERIFY",
   "DEVICE", "SCREEN", "MOBILE", "TABLET", "SELECT", "PLEASE", "SIMPLE",
   "NEEDED", "EXTEND", "RANDOM", "ACTIVE", "PLAYED", "ESCAPE", "ALMOST",
   "INSIDE", "SOLVED", "CENTER", "BOTTOM", "SHADOW", "CURSOR", "ROTATE",
   "COLORS", "IMAGES", "CANCEL", "RETURN", "UPDATE", "ALERTS", "ERRORS"]

/-- Unit suffixes of the scroll-phase CSS filter (a shorter list than the
extractor's). -/
def SCROLL_UNITS : List String := ["PX", "VH", "VW", "EM", "REM", "MS", "FR"]

def isScrollCssArtifact (c : String) : Bool :=
  let ds := c.data.takeWhile Char.isDigit
  !ds.isEmpty && SCROLL_UNITS.contains (String.mk (c.data.drop ds.length))

/-- The accumulated-code filter of phases 0 and 4: drop filler words, pure
numerals, already-known codes and CSS artifacts. -/
def scrollFilter (codesToTry : List String) (raw : List String) : List String :=
  raw.filter fun c =>
    !LATIN.contains c && !isPureDigits c && !codesToTry.contains c &&
      !isScrollCssArtifact c

/-- `sort(key=lambda c: (c.isalpha(), c))`: digit-bearing codes first. -/
def scrollLe (a b : String) : Bool :=
  boolLtB (a.data.all Char.isAlpha) (b.data.all Char.isAlpha) ||
    ((a.data.all Char.isAlpha) == (b.data.all Char.isAlpha) && decide (a ≤ b))

def scrollRank (codesToTry : List String) (raw : List String) : List String :=
  (List.insertionSort (fun a b => scrollLe a b = true)
    (scrollFilter codesToTry raw)).take 5

/-- Step E of `_try_scroll_to_find_nav` (lines 1626-1641): re-enter each of
the first three known codes directly (`inp.fill` + Enter — not the
Submission Protocol) and check progress. -/
def enterRetriesF (step : Nat) : List String → AgSt → Bool × AgSt
  | [], s => (false, s)
  | c :: rest, s =>
    let s1 := pushEF (.directFill c) s
    let (ok, s2) := checkProgF step s1
    if ok then (true, s2) else enterRetriesF step rest s2

/-- `_try_scroll_to_find_nav(codes_to_try)` (lines 1132-1760), with the
wheel/click phases abstracted into environment flags: fill the last known
code into the input, scroll for auto-navigation, submit the filtered
accumulated codes of phase 0, the new codes of step D, retry the known codes
with Enter (step E), submit the filtered accumulated codes of phase 4, then
attempt hidden-navigation links. -/
def scrollPhase5F (s : AgSt) : Bool × AgSt :=
  askFlagF (pushEF (.handler "scroll_phase5_nav") s)

def scrollPhase4F (codesToTry : List String) (s : AgSt) : Bool × AgSt :=
  let s7 := pushEF (.handler "scroll_phase4_clicks") s
  let (auto3, s8) := askFlagF s7
  if auto3 then (true, s8) else
  let (raw4, s9) := askExtraF s8
  let (r4, s10) := submitSeqF (scrollRank codesToTry raw4) s9
  if r4 then (true, s10) else scrollPhase5F s10

def scrollStepEF (step : Nat) (codesToTry : List String) (s : AgSt) :
    Bool × AgSt :=
  let (rE, s7) := enterRetriesF step (codesToTry.take 3) s
  if rE then (true, s7) else scrollPhase4F codesToTry s7

def scrollStepDF (step : Nat) (codesToTry : List String) (s : AgSt) :
    Bool × AgSt :=
  let (rawD, s5) := askExtraF s
  let (rD, s6) :=
    submitSeqF ((rawD.filter (fun c => !codesToTry.contains c)).take 3) s5
  if rD then (true, s6) else scrollStepEF step codesToTry s6

def scrollPhases13F (step : Nat) (codesToTry : List String) (s : AgSt) :
    Bool × AgSt :=
  let s3 := pushEF (.handler "scroll_phases_1_3") s
  let (auto2, s4) := askFlagF s3
  if auto2 then (true, s4) else scrollStepDF step codesToTry s4

def scrollPhase0F (step : Nat) (codesToTry : List String) (s : AgSt) :
    Bool × AgSt :=
  let (raw0, s2) := askExtraF s
  let (r0, s3) := submitSeqF (scrollRank codesToTry raw0) s2
  if r0 then (true, s3) else scrollPhases13F step codesToTry s3

def scrollLastFillF (codesToTry : List String) (s : AgSt) : AgSt :=
  match codesToTry.getLast? with
  | some c => pushEF (.directFill c) s
  | none => s

def scrollToFindNavF (step : Nat) (codesToTry : List String) (s : AgSt) :
    Bool × AgSt :=
  let s0 := pushEF (.handler "scroll_wheel_phase0") (scrollLastFillF codesToTry s)
  let (auto, s1) := askFlagF s0
  if auto then (true, s1) else scrollPhase0F step codesToTry s1

/-- One trap-button round of `_try_trap_buttons` (lines 921-945): clear
popups, set the code into the input via JS and click the i-th trap-labelled
button, then check progress. -/
def trapRoundF (step : Nat) (code : String) (s : AgSt) : Bool × AgSt :=
  let s1 := pushEF .clearPop s
  let s2 := pushEF (.directFill code) s1
  checkProgF step s2

def trapInnerF (step : Nat) (code : String) : Nat → AgSt → Bool × AgSt
  | 0, s => (false, s)
  | k + 1, s =>
    let (ok, s1) := trapRoundF step code s
    if ok then (true, s1) else trapInnerF step code k s1

def trapCodesF (step : Nat) (rounds : Nat) : List String → AgSt → Bool × AgSt
  | [], s => (false, s)
  | c :: rest, s =>
    let (ok, s1) := trapInnerF step c rounds s
    if ok then (true, s1) else trapCodesF step rounds rest s1

/-- `_try_trap_buttons(step, codes)` (lines 898-950), called by the
dispatcher with the failure memory: each of the first five failed codes is
typed into the input and tried against up to `min(count, 40)` trap-labelled
controls. -/
def tryTrapButtonsF (step : Nat) (s : AgSt) : Bool × AgSt :=
  let (cnt, s1) := askNumF s
  if cnt == 0 then (false, s1)
  else trapCodesF step (min cnt 40) (s1.failed.take 5) s1

/-- The math-puzzle branch of the fast path (lines 170-177): solve the
expression (environment), then submit the revealed code under the
failure-memory guard. -/
def mathPuzzleF (s : AgSt) : Bool × AgSt :=
  let (mc, s1) := askMathF s
  match mc with
  | none => (false, s1)
  | some c =>
    if s1.failed.contains c then (false, s1)
    else
      let (ok, s2) := fillSubmitF c s1
      if ok then (true, s2) else (false, recordFailF c s2)

/-- Attempt 0, the deterministic fast path (lines 84-421): scroll/reveal
interactions, DOM extraction and guarded submission, radio brute force,
keyboard sequences, the math puzzle, the archetype handlers, the
scroll-to-find-navigation challenge, delayed reveals, a fresh extraction
round, drag-and-drop, a final extraction round, a progress check, and the
trap-count-triggered scroll search. -/
def fastTrapScrollF (step : Nat) (s : AgSt) : Bool × AgSt :=
  if s.failed.isEmpty then (false, s)
  else
    let (tc, s) := askNumF s
    if 8 ≤ tc then
      let (r, s') := scrollToFindNavF step s.failed s
      if r then checkProgF step s' else (false, s')
    else (false, s)

def fastFinalCheckF (step : Nat) (s : AgSt) : Bool × AgSt :=
  let (ok, s) := checkProgF step s
  if ok then (true, s) else fastTrapScrollF step s

def fastExtract2F (step : Nat) (s : AgSt) : Bool × AgSt :=
  let s := pushEF (.handler "decoy_hide_and_drag_drop") s
  let (codes2, s) := askCodesF s
  let (r3, s) := tryCodesF step codes2 s
  if r3 then (true, s) else fastFinalCheckF step s

def fastFreshF (step : Nat) (s : AgSt) : Bool × AgSt :=
  let s := pushEF (.handler "delayed_reveal_wait") s
  let (fresh, s) := askCodesF s
  let (r2, s) := tryCodesF step fresh s
  if r2 then (true, s) else fastExtract2F step s

def fastScrollF (step : Nat) (codes : List String) (s : AgSt) : Bool × AgSt :=
  let s := pushEF (.handler "timing_hover_memory_audio_canvas_parts_tabs_video") s
  let (isScroll, s) := askFlagF s
  let (rs, s) :=
    if isScroll then
      let (r, s') := scrollToFindNavF step (codes ++ s.failed) s
      if r then checkProgF step s' else (false, s')
    else (false, s)
  if rs then (true, s) else fastFreshF step s

def fastMathF (step : Nat) (codes : List String) (s : AgSt) : Bool × AgSt :=
  let s := pushEF (.handler "keyboard_sequences") s
  let (rm, s) := mathPuzzleF s
  if rm then (true, s) else fastScrollF step codes s

def fastRadioF (step : Nat) (codes : List String) (s : AgSt) : Bool × AgSt :=
  let s := pushEF (.handler "brute_force_radio") s
  let (rb, s) := askFlagF s
  if rb then (true, s) else fastMathF step codes s

def fastPathF (step : Nat) (s : AgSt) : Bool × AgSt :=
  let s := pushEF (.handler "scroll_and_reveal_clicks") s
  let (codes, s) := askCodesF s
  let (r1, s) := tryCodesF step codes s
  if r1 then (true, s) else fastRadioF step codes s

/-- Step 10 of the loop (lines 490-553): every third attempt from the third,
re-run the key fast-path handlers and re-extract codes. -/
def replayCodesF (step : Nat) (s : AgSt) : Bool × AgSt :=
  let s := pushEF (.handler "audio_canvas_delay_drag_replays") s
  let (codes, s) := askCodesF s
  tryCodesF step codes s

def replayHandlersF (step : Nat) (s : AgSt) : Bool × AgSt :=
  let s := pushEF (.handler "replay_scroll_detect") s
  let (isScroll, s) := askFlagF s
  let (r1, s) :=
    if isScroll then
      let (r, s') := scrollToFindNavF step s.failed s
      if r then checkProgF step s' else (false, s')
    else (false, s)
  if r1 then (true, s) else replayCodesF step s

/-- One oracle-driven attempt (steps 4-11 of the loop, lines 423-562):
screenshot+extraction, the `vision.analyze` call, the guarded submission of
an oracle-reported code, action execution, re-extraction and guarded
submission, a progress check, the every-4th-attempt trap-button retry of the
failure memory, the every-3rd-attempt handler replay, and the
hide-stuck-modals step on attempt 5. -/
def agentTail5F (a : Nat) (s : AgSt) : Bool × AgSt :=
  if a == 5 then
    let (h, s) := askNumF s
    if 0 < h then
      let s := pushEF (.handler "hide_stuck_modals_retry_radio") s
      askFlagF s
    else (false, s)
  else (false, s)

def agentReplayF (step a : Nat) (s : AgSt) : Bool × AgSt :=
  let (r4, s) :=
    if 3 ≤ a && a % 3 == 0 then replayHandlersF step s else (false, s)
  if r4 then (true, s) else agentTail5F a s

def agentTrapF (step a : Nat) (s : AgSt) : Bool × AgSt :=
  let (r3, s) :=
    if 4 ≤ a && a % 4 == 0 && !s.failed.isEmpty then tryTrapButtonsF step s
    else (false, s)
  if r3 then (true, s) else agentReplayF step a s

def agentProgressF (step a : Nat) (s : AgSt) : Bool × AgSt :=
  let (ok, s) := checkProgF step s
  if ok then (true, s) else agentTrapF step a s

def agentExecF (step a : Nat) (s : AgSt) : Bool × AgSt :=
  let s := pushEF .execAct s
  let (newCodes, s) := askCodesF s
  let (r2, s) := tryCodesF step newCodes s
  if r2 then (true, s) else agentProgressF step a s

def agentOracleSubmitF (step a : Nat) (s : AgSt) : Bool × AgSt :=
  let (oc, s) := askOraF s
  let (r1, s) :=
    match oc with
    | some c0 =>
      let c := jsTrim (String.mk (upperChars c0.data))
      if c.length == 6 && !s.failed.contains c then
        let (ok, s') := fillSubmitF c s
        if ok then (true, s') else (false, recordFailF c s')
      else (false, s)
    | none => (false, s)
  if r1 then (true, s) else agentExecF step a s

def agentAttemptF (step a : Nat) (s : AgSt) : Bool × AgSt :=
  let s := pushEF (.handler "scroll_position_variation") s
  let (_, s) := askCodesF s
  let s := pushEF (.oracleCall a) s
  agentOracleSubmitF step a s

/-- The attempt loop of `_solve_step` (lines 72-567): per attempt, check
progress, clear popups, then run the fast path (attempt 0) or an
oracle-driven attempt. -/
def solveStepGoF (step : Nat) : List Nat → AgSt → Bool × AgSt
  | [], s => (false, s)
  | a :: rest, s =>
    let (ok, s1) := checkProgF step s
    if ok then (true, s1) else
    let s2 := pushEF .clearPop s1
    let (r, s3) := if a == 0 then fastPathF step s2 else agentAttemptF step a s2
    if r then (true, s3) else solveStepGoF step rest s3

def initAgSt (env : AgEnv) : AgSt :=
  ⟨env, 0, 0, 0, 0, 0, 0, 0, 0, [], []⟩

/-- `_solve_step(step)`: 15 attempts over a fresh failure memory
(`failed_codes: list[str] = []`, line 65), returning success and the event
trace. -/
def solve_step (env : AgEnv) (step : Nat) : Bool × List AgEvent :=
  let (b, s) := solveStepGoF step (List.range 15) (initAgSt env)
  (b, s.trace)

/-! ## The brute-force dispatcher `_solve_challenge` (`solver.py` lines 77-649)

Embedded at the granularity C8 needs: the long chain of keyword-dispatched
archetype handlers (lines 107-558) neither fills codes from the failure
memory nor calls the vision oracle, so it is abstracted into environment
flags that may settle the attempt; the vision call itself (lines 627-646) is
kept exact, including its `attempt > 0 and attempt % 5 == 0` cadence. -/
inductive SvEvent where
  | progress (ok : Bool)
  | handler (name : String)
  | fillCode (code : String)
  | oracleCall (attempt : Nat)
  | execAct
deriving DecidableEq, Repr

structure SvEnv where
  urls : Nat → String
  flags : Nat → Bool
  codes : Nat → List String
  oracleCode : Nat → Option String

structure SvSt where
  env : SvEnv
  tUrl : Nat
  tFlag : Nat
  tCodes : Nat
  tOra : Nat
  trace : List SvEvent

def pushSv (e : SvEvent) (s : SvSt) : SvSt := { s with trace := s.trace ++ [e] }

def askSvUrl (s : SvSt) : String × SvSt :=
  (s.env.urls s.tUrl, { s with tUrl := s.tUrl + 1 })

def askSvFlag (s : SvSt) : Bool × SvSt :=
  (s.env.flags s.tFlag, { s with tFlag := s.tFlag + 1 })

def askSvCodes (s : SvSt) : List String × SvSt :=
  (s.env.codes s.tCodes, { s with tCodes := s.tCodes + 1 })

def askSvOra (s : SvSt) : Option String × SvSt :=
  (s.env.oracleCode s.tOra, { s with tOra := s.tOra + 1 })

/-- `_try_fill_code(codes)` (lines 3838-3923): fill each code in turn and
stop when the location changes (no failure memory in this solver). -/
def svFillLoopF : List String → SvSt → Bool × SvSt
  | [], s => (false, s)
  | c :: rest, s =>
    let s1 := pushSv (.fillCode c) s
    let (chg, s2) := askSvFlag s1
    if chg then (true, s2) else svFillLoopF rest s2

/-- One attempt of `_solve_challenge`: progress check, special/archetype
handlers (abstracted), DOM extraction and submission, blank-page `continue`,
progress re-check, fallback strategies from attempt 3, and the vision oracle
on every 5th attempt. -/
def svOracleF (a : Nat) (s : SvSt) : Bool × SvSt :=
  if 0 < a && a % 5 == 0 then
    let s := pushSv (.oracleCall a) s
    let (oc, s) := askSvOra s
    let s := match oc with
      | some c => (svFillLoopF [c] s).2
      | none => s
    (false, pushSv .execAct s)
  else (false, s)

def svFallbackF (a : Nat) (domEmpty filled0 : Bool) (s : SvSt) : Bool × SvSt :=
  let (fbOk, s) :=
    if 3 ≤ a && domEmpty && !filled0 then
      let s := pushSv (.handler "fallback_strategies") s
      askSvFlag s
    else (false, s)
  if fbOk then (true, s) else svOracleF a s

def svRecheckF (n a : Nat) (domEmpty filled0 : Bool) (s : SvSt) : Bool × SvSt :=
  let (u2, s) := askSvUrl s
  let p2 := check_progress u2 n
  let s := pushSv (.progress p2) s
  if p2 then (true, s) else svFallbackF a domEmpty filled0 s

def svDomF (n a : Nat) (s : SvSt) : Bool × SvSt :=
  let (dom, s) := askSvCodes s
  let (blankSkip, s) := if dom.isEmpty then askSvFlag s else (false, s)
  if blankSkip then (false, s) else
  let (filled0, s) := if dom.isEmpty then (false, s) else svFillLoopF dom s
  svRecheckF n a dom.isEmpty filled0 s

def svAttemptF (n a : Nat) (s : SvSt) : Bool × SvSt :=
  let (u, s) := askSvUrl s
  let p := check_progress u n
  let s := pushSv (.progress p) s
  if p then (true, s) else
  let s := pushSv (.handler "special_challenges_and_archetype_handlers") s
  let (hOk, s) := askSvFlag s
  if hOk then (true, s) else svDomF n a s

def solveChallengeGoF (n : Nat) : List Nat → SvSt → Bool × SvSt
  | [], s => (false, s)
  | a :: rest, s =>
    let (r, s1) := svAttemptF n a s
    if r then (true, s1) else solveChallengeGoF n rest s1

def initSvSt (env : SvEnv) : SvSt := ⟨env, 0, 0, 0, 0, []⟩

/-- `_solve_challenge(challenge_num)`: 15 attempts (line 87). -/
def solve_challenge (env : SvEnv) (n : Nat) : Bool × List SvEvent :=
  let (b, s) := solveChallengeGoF n (List.range 15) (initSvSt env)
  (b, s.trace)

/-- The React-Router state reset of `_try_math_puzzle_challenge`
(`solver.py` lines 1813-1841): the navigate-away-and-back recovery is
performed exactly when the puzzle's number input is missing (a stale view),
once per handler invocation — there is no all-candidates-failed trigger and
no dispatcher-level state reset in either solver. -/
def mathPuzzleResets (hasNumberInput : Bool) : Nat :=
  if hasNumberInput then 0 else 1

/-! ## Trace predicates for the dispatcher claims -/
/-- The failure memory determined by a trace (the codes of `recordFail`
events, in order, appended to the initial memory `f`). -/
def failsFrom (f : List String) (t : List AgEvent) : List String :=
  t.foldl
    (fun acc e => match e with | .recordFail c => acc ++ [c] | _ => acc) f

/-- `SubSafeFrom f t`: every Submission-Protocol invocation in `t` carries a
code outside the failure memory as accumulated at that point (starting from
`f`). -/
def SubSafeFrom : List String → List AgEvent → Prop
  | _, [] => True
  | f, .protoSubmit c _ :: rest => f.contains c = false ∧ SubSafeFrom f rest
  | f, .recordFail c :: rest => SubSafeFrom (f ++ [c]) rest
  | f, _ :: rest => SubSafeFrom f rest

/-- Does an event enter `code` into the page's input and activate a control
(either through the Submission Protocol or one of the direct retry paths)? -/
def isSubmitOf (code : String) : AgEvent → Bool
  | .protoSubmit c _ => c == code
  | .directFill c => c == code
  | _ => false

/-- Is `code` submitted (in any way) strictly after a `recordFail code`
event in the trace? -/
def resubmitsAfterFail (code : String) (t : List AgEvent) : Bool :=
  ((t.dropWhile (fun e => e != .recordFail code)).drop 1).any (isSubmitOf code)

/-- The dispatcher-state invariant: the failure memory matches the trace,
the Submission Protocol is never invoked on a remembered code, the trace has
no state reset, and oracle calls only occur on attempts 1-14. -/
def StOK (s : AgSt) : Prop :=
  s.failed = failsFrom [] s.trace ∧ SubSafeFrom [] s.trace ∧
    s.trace.countP (fun e => e == .stateReset) = 0 ∧
    ∀ k, AgEvent.oracleCall k ∈ s.trace → 1 ≤ k ∧ k < 15

/-- The solver-side oracle-cadence invariant: every vision call recorded in
the trace happened on a positive multiple-of-5 attempt. -/
def SvOK (s : SvSt) : Prop :=
  ∀ k, SvEvent.oracleCall k ∈ s.trace → 0 < k ∧ k % 5 = 0

/-- An environment with no codes, no flags and no trap-button count: every
query comes back empty. -/
def envPlain : AgEnv :=
  ⟨fun _ => "u", fun _ => [], fun _ => false, fun _ => false,
   fun _ => none, fun _ => [], fun _ => 0, fun _ => none⟩

/-- An environment whose pages always show one trap-labelled control
(`count = 1` for every trap-count query). -/
def envTrap : AgEnv :=
  ⟨fun _ => "u", fun _ => [], fun _ => false, fun _ => false,
   fun _ => none, fun _ => [], fun _ => 1, fun _ => none⟩

/-- The dispatcher state right after a protocol submission of `AAA111`
failed and was recorded (`_fill_and_submit` returned `False`,
`failed_codes.append`): the trace holds exactly those two events and the
failure memory holds the code. -/
def stC2 : AgSt :=
  { initAgSt envTrap with
    failed := ["AAA111"],
    trace := [.protoSubmit "AAA111" false, .recordFail "AAA111"] }

/-- Does a solver event respect the brute-force solver's oracle cadence
(`attempt > 0 and attempt % 5 == 0`, `solver.py` line 628)? Non-oracle
events do vacuously. -/
def svCadenceOK : SvEvent → Bool
  | .oracleCall k => decide (0 < k) && (k % 5 == 0)
  | _ => true

/-- Does an agent event carry an oracle call of the loop's attempt range
(attempts 1-14)? Non-oracle events do vacuously. -/
def agOracleInRange : AgEvent → Bool
  | .oracleCall k => decide (1 ≤ k) && decide (k < 15)
  | _ => true

/-! ## Lemmas about the extractor -/
theorem mem_dedupFirstAux (l : List String) :
    ∀ (seen : List String) (c : String), c ∈ dedupFirstAux seen l → c ∈ l := by
  induction l with
  | nil => intro seen c h; simp [dedupFirstAux] at h
  | cons a rest ih =>
    intro seen c h
    rw [dedupFirstAux] at h
    split at h
    · exact List.mem_cons_of_mem _ (ih _ _ h)
    · rcases List.mem_cons.1 h with h | h
      · exact h ▸ List.mem_cons_self _ _
      · exact List.mem_cons_of_mem _ (ih _ _ h)

theorem dedupFirstAux_not_seen (l : List String) :
    ∀ (seen : List String) (c : String), c ∈ dedupFirstAux seen l →
      seen.contains c = false := by
  induction l with
  | nil => intro seen c h; simp [dedupFirstAux] at h
  | cons a rest ih =>
    intro seen c h
    rw [dedupFirstAux] at h
    split at h
    · exact ih _ _ h
    · rename_i hns
      rcases List.mem_cons.1 h with h | h
      · subst h; simpa using hns
      · have h2 := ih _ _ h
        simp only [List.contains_cons, Bool.or_eq_false_iff] at h2
        exact h2.2

theorem nodup_dedupFirstAux (l : List String) :
    ∀ (seen : List String), (dedupFirstAux seen l).Nodup := by
  induction l with
  | nil => intro seen; simp [dedupFirstAux]
  | cons a rest ih =>
    intro seen
    rw [dedupFirstAux]
    split
    · exact ih _
    · refine List.nodup_cons.2 ⟨fun hmem => ?_, ih _⟩
      have := dedupFirstAux_not_seen rest (a :: seen) a hmem
      simp at this

theorem findCodesAux_shape (fuel : Nat) :
    ∀ (prevWord : Bool) (l : List Char) (c : String),
      c ∈ findCodesAux fuel prevWord l →
        c.length = 6 ∧ c.data.all isCodeChar = true := by
  induction fuel with
  | zero => intro prevWord l c h; simp [findCodesAux] at h
  | succ n ih =>
    intro prevWord l c h
    match l with
    | [] => simp [findCodesAux] at h
    | x :: rest =>
      rw [findCodesAux] at h
      split at h
      · rename_i hcond
        rcases List.mem_cons.1 h with h | h
        · subst h
          have hcode : codeHere (x :: rest) = true := by
            simp only [Bool.and_eq_true] at hcond
            exact hcond.2
          simp only [codeHere, Bool.and_eq_true, beq_iff_eq] at hcode
          refine ⟨?_, ?_⟩
          · show ((x :: rest).take 6).length = 6
            exact hcode.1.1
          · show ((x :: rest).take 6).all isCodeChar = true
            exact hcode.1.2
        · exact ih _ _ _ h
      · exact ih _ _ _ h

theorem findCodes_shape (l : List Char) (c : String) (h : c ∈ findCodes l) :
    c.length = 6 ∧ c.data.all isCodeChar = true :=
  findCodesAux_shape _ _ _ _ h

theorem mem_rawCodes_shape (doc : HDoc) (c : String) (h : c ∈ rawCodes doc) :
    c.length = 6 ∧ c.data.all isCodeChar = true := by
  have h' := mem_dedupFirstAux _ _ _ h
  simp only [List.mem_append] at h'
  rcases h' with ((((((h' | h') | h') | h') | h') | h') | h') | h'
  · exact findCodes_shape _ _ h'
  · simp only [dataAttrCodes, List.mem_flatMap] at h'
    obtain ⟨e, -, kv, -, h'⟩ := h'
    split at h'
    · exact findCodes_shape _ _ h'
    · simp at h'
  · simp only [ariaAttrCodes, List.mem_flatMap] at h'
    obtain ⟨e, -, kv, -, h'⟩ := h'
    split at h'
    · exact findCodes_shape _ _ h'
    · simp at h'
  · simp only [hiddenStyleCodes, List.mem_flatMap] at h'
    obtain ⟨e, -, h'⟩ := h'
    split at h'
    · split at h'
      · exact findCodes_shape _ _ h'
      · simp at h'
    · simp at h'
  · simp only [hiddenAttrCodes, List.mem_flatMap] at h'
    obtain ⟨e, -, h'⟩ := h'
    split at h'
    · exact findCodes_shape _ _ h'
    · simp at h'
  · simp only [commentCodes, List.mem_flatMap] at h'
    obtain ⟨s, -, h'⟩ := h'
    exact findCodes_shape _ _ h'
  · simp only [metaCodes, List.mem_flatMap] at h'
    obtain ⟨e, -, h'⟩ := h'
    split at h'
    · exact findCodes_shape _ _ h'
    · simp at h'
  · simp only [titleCodes, List.mem_flatMap] at h'
    obtain ⟨e, -, h'⟩ := h'
    split at h'
    · exact findCodes_shape _ _ h'
    · simp at h'

theorem mem_extract_filtered (doc : HDoc) (c : String)
    (h : c ∈ extract_hidden_codes doc) : c ∈ filteredCodes doc := by
  have h1 : c ∈ List.insertionSort (fun a b => rankLe doc a b = true)
      (filteredCodes doc) := List.take_subset _ _ h
  exact (List.perm_insertionSort _ _).subset h1

theorem mem_extract_passes (doc : HDoc) (c : String)
    (h : c ∈ extract_hidden_codes doc) : passesFilters c = true :=
  (List.mem_filter.1 (mem_extract_filtered doc c h)).2

theorem lexBB_total (x y u v : Bool) (a b : String) :
    (boolLtB x y || (x == y && (boolLtB u v || (u == v && decide (a ≤ b))))) = true ∨
    (boolLtB y x || (y == x && (boolLtB v u || (v == u && decide (b ≤ a))))) = true := by
  cases x <;> cases y <;> cases u <;> cases v <;>
    simp [boolLtB, decide_eq_true_eq] <;> exact le_total a.data b.data

theorem lexBB_trans (x y z u v w : Bool) (a b c : String)
    (h1 : (boolLtB x y || (x == y && (boolLtB u v || (u == v && decide (a ≤ b))))) = true)
    (h2 : (boolLtB y z || (y == z && (boolLtB v w || (v == w && decide (b ≤ c))))) = true) :
    (boolLtB x z || (x == z && (boolLtB u w || (u == w && decide (a ≤ c))))) = true := by
  cases x <;> cases y <;> cases z <;> cases u <;> cases v <;> cases w <;>
    simp [boolLtB, decide_eq_true_eq] at h1 h2 ⊢ <;>
    exact le_trans h1 h2

theorem rankLe_total (doc : HDoc) (a b : String) :
    rankLe doc a b = true ∨ rankLe doc b a = true :=
  lexBB_total _ _ _ _ a b

theorem rankLe_trans (doc : HDoc) (a b c : String)
    (h1 : rankLe doc a b = true) (h2 : rankLe doc b c = true) :
    rankLe doc a c = true :=
  lexBB_trans _ _ _ _ _ _ a b c h1 h2

/-! ## Claim theorems for the Candidate Extractor -/
/-- C3 (counterexample): the claim places meta-tag content among the hidden
sources that must rank at or above visible-only tokens, but the
`high_priority` re-scan of `extract_hidden_codes` (lines 133-152) covers only
`data-*`/`aria-*` attributes, comments and structurally hidden elements — not
meta content or title attributes.  On `cexDocC3`, `ABCDEF` comes only from a
`<meta content>` attribute and `AB12CD` only from visible text, yet the
extractor returns `["AB12CD", "ABCDEF"]`, ranking the hidden-source token
strictly below the visible-only one. -/
theorem extract_ranking_cex :
    extract_hidden_codes cexDocC3 = ["AB12CD", "ABCDEF"] ∧
    metaCodes cexDocC3 = ["ABCDEF"] ∧
    visibleTextCodes cexDocC3 = ["AB12CD"] ∧
    isHighPriority cexDocC3 "ABCDEF" = false ∧
    isHighPriority cexDocC3 "AB12CD" = false ∧
    titleCodes cexDocC3 = [] := by
  refine ⟨by decide, by decide, by decide, by decide, by decide, by decide⟩

/-- C3 (amended): every list returned by `extract_hidden_codes` is sorted by
the source's ranking key — high-priority sources (`data-*`/`aria-*`
attributes, HTML comments, structurally hidden elements — not meta-tag
content or title attributes) first, then tokens mixing a letter and a digit,
and lexicographic order for the remaining ties. -/
theorem extract_hidden_codes_ranked (doc : HDoc) :
    List.Pairwise (fun a b => rankLe doc a b = true) (extract_hidden_codes doc) := by
  have hs : List.Sorted (fun a b => rankLe doc a b = true)
      (List.insertionSort (fun a b => rankLe doc a b = true) (filteredCodes doc)) := by
    haveI : IsTotal String (fun a b => rankLe doc a b = true) :=
      ⟨fun a b => rankLe_total doc a b⟩
    haveI : IsTrans String (fun a b => rankLe doc a b = true) :=
      ⟨fun a b c => rankLe_trans doc a b c⟩
    exact List.sorted_insertionSort _ _
  exact List.Pairwise.sublist (List.take_sublist _ _) hs

/-- C5: `extract_hidden_codes` always returns a duplicate-free list of at most
15 tokens, none of which is in the static `FALSE_POSITIVES` blocklist, a pure
numeral, or a digit-prefixed CSS unit artifact. -/
theorem extract_hidden_codes_clean (doc : HDoc) :
    (extract_hidden_codes doc).Nodup ∧ (extract_hidden_codes doc).length ≤ 15 ∧
      ∀ c, c ∈ extract_hidden_codes doc →
        FALSE_POSITIVES.contains c = false ∧ isPureDigits c = false ∧
          isCssArtifact c = false := by
  refine ⟨?_, ?_, ?_⟩
  · have hraw : (rawCodes doc).Nodup := nodup_dedupFirstAux _ _
    have hf : (filteredCodes doc).Nodup := hraw.filter _
    have hsort := ((List.perm_insertionSort
      (fun a b => rankLe doc a b = true) (filteredCodes doc)).symm).nodup hf
    exact List.Nodup.sublist (List.take_sublist _ _) hsort
  · exact List.length_take_le _ _
  · intro c hc
    have hp := mem_extract_passes doc c hc
    simp only [passesFilters, Bool.and_eq_true, Bool.not_eq_true'] at hp
    exact ⟨hp.1.1.1, hp.1.2, hp.1.1.2⟩

/-- C5 (witness): a concrete instantiation on a document whose comment holds
the token `QQ77QQ`. -/
theorem extract_hidden_codes_clean_witness :
    "QQ77QQ" ∈ extract_hidden_codes [.comment "token QQ77QQ here"] ∧
      (FALSE_POSITIVES.contains "QQ77QQ" = false ∧ isPureDigits "QQ77QQ" = false ∧
        isCssArtifact "QQ77QQ" = false) :=
  ⟨by decide, (extract_hidden_codes_clean [.comment "token QQ77QQ here"]).2.2
    "QQ77QQ" (by decide)⟩

/-- C10: every candidate returned by `extract_hidden_codes` is exactly six
characters drawn from `A-Z0-9`; extraction upper-cases the document text
before matching (`CODE_PATTERN.findall(text.upper())`), so lowercase codes
are returned upper-cased. -/
theorem extract_hidden_codes_shape (doc : HDoc) (c : String)
    (h : c ∈ extract_hidden_codes doc) :
    c.length = 6 ∧ c.data.all isCodeChar = true := by
  have h1 := mem_extract_filtered doc c h
  exact mem_rawCodes_shape doc c (List.mem_filter.1 h1).1

/-- C10 (witness): on a page whose visible text spells the code in lowercase
(`ab12cd`), the extractor returns the upper-cased `AB12CD`, which has the
required six-character `A-Z0-9` shape. -/
theorem extract_hidden_codes_shape_witness :
    "AB12CD" ∈ extract_hidden_codes [.elem "div" [] [.text "the code is ab12cd"]] ∧
      ("AB12CD".length = 6 ∧ "AB12CD".data.all isCodeChar = true) :=
  ⟨by decide, extract_hidden_codes_shape
    [.elem "div" [] [.text "the code is ab12cd"]] "AB12CD" (by decide)⟩

/-! ## Lemmas about the progress oracle -/
theorem containsSub_nil (pat : List Char) : containsSub [] pat = leadsWith pat [] := by
  rw [containsSub]; cases leadsWith pat [] <;> rfl

theorem containsSub_cons (c : Char) (cs pat : List Char) :
    containsSub (c :: cs) pat = (leadsWith pat (c :: cs) || containsSub cs pat) := by
  rw [containsSub]

theorem leadsWith_iff (pat : List Char) :
    ∀ l, leadsWith pat l = true ↔ ∃ suf, l = pat ++ suf := by
  induction pat with
  | nil =>
    intro l
    constructor
    · intro _; exact ⟨l, rfl⟩
    · intro _; rfl
  | cons p ps ih =>
    intro l
    match l with
    | [] =>
      rw [leadsWith]
      constructor
      · intro h; cases h
      · rintro ⟨suf, hs⟩; simp at hs
    | c :: cs =>
      rw [leadsWith]
      constructor
      · intro h
        simp only [Bool.and_eq_true] at h
        obtain ⟨h1, h2⟩ := h
        obtain ⟨suf, hs⟩ := (ih cs).1 h2
        exact ⟨suf, by rw [List.cons_append, ← eq_of_beq h1, hs]⟩
      · rintro ⟨suf, hs⟩
        rw [List.cons_append] at hs
        injection hs with h1 h2
        subst h1; subst h2
        simp [(ih (ps ++ suf)).2 ⟨suf, rfl⟩]

theorem leadsWith_append (pat suf : List Char) : leadsWith pat (pat ++ suf) = true :=
  (leadsWith_iff pat _).2 ⟨suf, rfl⟩

theorem containsSub_iff (pat : List Char) :
    ∀ l, containsSub l pat = true ↔ ∃ pre suf, l = pre ++ pat ++ suf := by
  intro l
  induction l with
  | nil =>
    rw [containsSub_nil]
    constructor
    · intro h
      obtain ⟨suf, hs⟩ := (leadsWith_iff pat []).1 h
      exact ⟨[], suf, by simpa using hs⟩
    · rintro ⟨pre, suf, hs⟩
      have h0 := List.append_eq_nil.1 hs.symm
      have h1 := List.append_eq_nil.1 h0.1
      have hp : pat = [] := h1.2
      subst hp
      exact (leadsWith_iff [] []).2 ⟨[], rfl⟩
  | cons c cs ih =>
    rw [containsSub_cons]
    constructor
    · intro h
      rw [Bool.or_eq_true] at h
      rcases h with h | h
      · obtain ⟨suf, hs⟩ := (leadsWith_iff pat _).1 h
        exact ⟨[], suf, by simpa using hs⟩
      · obtain ⟨pre, suf, hs⟩ := ih.1 h
        exact ⟨c :: pre, suf, by simp [hs]⟩
    · rintro ⟨pre, suf, hs⟩
      rw [Bool.or_eq_true]
      match pre with
      | [] =>
        exact Or.inl ((leadsWith_iff pat _).2 ⟨suf, by simpa using hs⟩)
      | p :: pre' =>
        rw [List.cons_append, List.cons_append] at hs
        injection hs with h1 h2
        exact Or.inr (ih.2 ⟨pre', suf, by simpa using h2⟩)

theorem decDigit_spec : ∀ d, d < 10 →
    digitVal (decDigit d) = d ∧ (decDigit d).isDigit = true := by decide

theorem parseDec_foldl_ge (ys : List Char) :
    ∀ acc : Nat, acc ≤ ys.foldl (fun a c => 10 * a + digitVal c) acc := by
  induction ys with
  | nil => intro acc; exact Nat.le_refl _
  | cons c ys ih =>
    intro acc
    have h1 : acc ≤ 10 * acc + digitVal c :=
      Nat.le_trans (Nat.le_mul_of_pos_left acc (by norm_num)) (Nat.le_add_right _ _)
    exact Nat.le_trans h1 (ih _)

theorem parseDec_append (xs ys : List Char) :
    parseDec (xs ++ ys) = ys.foldl (fun a c => 10 * a + digitVal c) (parseDec xs) := by
  simp [parseDec, List.foldl_append]

theorem parseDec_prefix_le (xs ys : List Char) : parseDec xs ≤ parseDec (xs ++ ys) := by
  rw [parseDec_append]
  exact parseDec_foldl_ge ys (parseDec xs)

theorem natDecAux_spec :
    ∀ (fuel n : Nat), n < fuel →
      natDecAux fuel n ≠ [] ∧ (natDecAux fuel n).all Char.isDigit = true ∧
        parseDec (natDecAux fuel n) = n := by
  intro fuel
  induction fuel with
  | zero => intro n h; cases h
  | succ f ih =>
    intro n hn
    rw [natDecAux]
    by_cases h10 : n < 10
    · rw [if_pos h10]
      refine ⟨by simp, ?_, ?_⟩
      · simp [List.all_cons, (decDigit_spec n h10).2]
      · show 10 * 0 + digitVal (decDigit n) = n
        simp [(decDigit_spec n h10).1]
    · rw [if_neg h10]
      push_neg at h10
      have hdivlt : n / 10 < n := Nat.div_lt_self (by omega) (by omega)
      have hdf : n / 10 < f := by omega
      obtain ⟨hne, hall, hval⟩ := ih (n / 10) hdf
      have hm : n % 10 < 10 := Nat.mod_lt _ (by omega)
      refine ⟨by simp, ?_, ?_⟩
      · rw [List.all_append, hall]
        simp [(decDigit_spec _ hm).2]
      · rw [parseDec_append, hval]
        show 10 * (n / 10) + digitVal (decDigit (n % 10)) = n
        rw [(decDigit_spec _ hm).1]
        exact Nat.div_add_mod n 10

theorem natDecRepr_spec (n : Nat) :
    natDecRepr n ≠ [] ∧ (natDecRepr n).all Char.isDigit = true ∧
      parseDec (natDecRepr n) = n :=
  natDecAux_spec (n + 1) n (Nat.lt_succ_self n)

theorem digit_not_sep (c : Char) (h : c.isDigit = true) : (c == '/' || c == '-') = false := by
  cases h1 : (c == '/') with
  | true =>
    exfalso
    have : c = '/' := eq_of_beq h1
    subst this
    simp [Char.isDigit] at h
  | false =>
    cases h2 : (c == '-') with
    | true =>
      exfalso
      have : c = '-' := eq_of_beq h2
      subst this
      simp [Char.isDigit] at h
    | false => rfl

theorem takeWhile_digits_append (xs ys : List Char) (h : xs.all Char.isDigit = true) :
    (xs ++ ys).takeWhile Char.isDigit = xs ++ ys.takeWhile Char.isDigit :=
  List.takeWhile_append_of_pos (List.all_eq_true.1 h)

theorem stepNumAt_hit (n : Nat) (suf mid : List Char)
    (hmid : mid = natDecRepr (n + 1) ++ suf ∨
      mid = '/' :: (natDecRepr (n + 1) ++ suf) ∨
      mid = '-' :: (natDecRepr (n + 1) ++ suf)) :
    ∃ v, stepNumAt ("step".data ++ mid) = some v ∧ n < v := by
  obtain ⟨hne, hall, hval⟩ := natDecRepr_spec (n + 1)
  obtain ⟨d0, ds', hds⟩ := List.exists_cons_of_ne_nil hne
  have hd0 : d0.isDigit = true := by
    have := hall
    rw [hds, List.all_cons, Bool.and_eq_true] at this
    exact this.1
  have hdrop : ("step".data ++ mid).drop 4 = mid := by
    have h4 : (4 : Nat) = ("step".data).length := rfl
    rw [h4, List.drop_left]
  have htw : (natDecRepr (n + 1) ++ suf).takeWhile Char.isDigit =
      natDecRepr (n + 1) ++ suf.takeWhile Char.isDigit :=
    takeWhile_digits_append _ _ hall
  have hsd : stepSepDigits (("step".data ++ mid).drop 4) =
      natDecRepr (n + 1) ++ suf.takeWhile Char.isDigit := by
    rw [hdrop]
    rcases hmid with h | h | h
    · subst h
      rw [hds, List.cons_append, stepSepDigits]
      rw [if_neg]
      · rw [← List.cons_append, ← hds]
        exact htw
      · rw [digit_not_sep d0 hd0]
        exact Bool.false_ne_true
    · subst h
      rw [stepSepDigits,
        if_pos (show (('/' : Char) == '/' || ('/' : Char) == '-') = true from rfl)]
      exact htw
    · subst h
      rw [stepSepDigits,
        if_pos (show (('-' : Char) == '/' || ('-' : Char) == '-') = true from rfl)]
      exact htw
  have hne2 : (stepSepDigits (("step".data ++ mid).drop 4)).isEmpty = false := by
    rw [hsd, hds, List.cons_append]
    rfl
  refine ⟨parseDec (stepSepDigits (("step".data ++ mid).drop 4)), ?_, ?_⟩
  · unfold stepNumAt
    rw [if_pos (leadsWith_append _ _), hne2]
    simp
  · rw [hsd]
    calc n < n + 1 := Nat.lt_succ_self n
    _ = parseDec (natDecRepr (n + 1)) := hval.symm
    _ ≤ _ := parseDec_prefix_le _ _

theorem stepNumAt_mem_scan (l : List Char) (v : Nat) (h : stepNumAt l = some v) :
    v ∈ stepScan l := by
  match l with
  | [] =>
    exfalso
    unfold stepNumAt at h
    rw [if_neg] at h
    · cases h
    · intro hlw
      obtain ⟨suf, hs⟩ := (leadsWith_iff _ _).1 hlw
      simp at hs
  | c :: rest =>
    rw [stepScan, h]
    exact List.mem_append_left _ (List.mem_singleton.2 rfl)

theorem stepScan_suffix (pre : List Char) :
    ∀ (l : List Char) (v : Nat), v ∈ stepScan l → v ∈ stepScan (pre ++ l) := by
  induction pre with
  | nil => intro l v h; exact h
  | cons c pre' ih =>
    intro l v h
    rw [List.cons_append, stepScan]
    exact List.mem_append_right _ (ih l v h)

theorem scan_single (ul : List Char) (v : Nat)
    (h1 : (stepScan ul).length ≤ 1) (h2 : v ∈ stepScan ul) :
    firstStepNum ul = some v := by
  unfold firstStepNum
  match hs : stepScan ul with
  | [] => rw [hs] at h2; cases h2
  | [x] =>
    rw [hs] at h2
    rw [List.mem_singleton.1 h2]
    rfl
  | x :: y :: rest =>
    rw [hs] at h1
    simp at h1

/-! ## Claim theorems for the Progress Oracle -/
/-- C1 (counterexample): on a location identifier embedding two step markers,
`_check_progress` and the claim's specification disagree.  `astep/2bstep/7`
at step 6 returns true (the `step/7` substring check fires) although the
embedded step number found by the code's own `re.search` is 2; and
`astep/2bstep/9` at step 6 returns false although the identifier embeds the
step number 9 > 6.  So the claimed equivalence fails under either reading of
"the step number embedded in u". -/
theorem check_progress_cex :
    check_progress "astep/2bstep/7" 6 = true ∧
    specAdvancedFirst "astep/2bstep/7" 6 = false ∧
    check_progress "astep/2bstep/9" 6 = false ∧
    specAdvancedSome "astep/2bstep/9" 6 = true :=
  ⟨by decide, by decide, by decide, by decide⟩

/-- C1 (amended): for every location identifier that embeds at most one
step-number pattern (step, optional '/' or '-', digits) — in particular every
well-formed one — `_check_progress(u, n)` returns true precisely when the
embedded step number exceeds `n`, or `n` is the final step (30) and `u`
contains a completion marker (`complete`, `finish` or `done`); with no
embedded step number and no completion marker it returns false (the model is
a total function, so it never raises). -/
theorem check_progress_agrees (u : String) (n : Nat)
    (h : (stepScan (lowerStr u)).length ≤ 1) :
    check_progress u n = specAdvancedFirst u n := by
  unfold check_progress specAdvancedFirst
  by_cases c1 : containsSub (lowerStr u) ("step".data ++ natDecRepr (n + 1)) = true
  · rw [if_pos c1]
    obtain ⟨pre, suf, hdec⟩ := (containsSub_iff _ _).1 c1
    obtain ⟨v, hv, hvn⟩ :=
      stepNumAt_hit n suf (natDecRepr (n + 1) ++ suf) (Or.inl rfl)
    have hmem : v ∈ stepScan (lowerStr u) := by
      rw [hdec, List.append_assoc, List.append_assoc]
      exact stepScan_suffix pre _ v (stepNumAt_mem_scan _ v hv)
    rw [scan_single _ v h hmem]
    have hd : decide (v > n) = true := decide_eq_true hvn
    show true = (decide (v > n) || _)
    rw [hd, Bool.true_or]
  · rw [if_neg c1]
    by_cases c2 : containsSub (lowerStr u) ("step-".data ++ natDecRepr (n + 1)) = true
    · rw [if_pos c2]
      obtain ⟨pre, suf, hdec⟩ := (containsSub_iff _ _).1 c2
      have he : ("step-".data ++ natDecRepr (n + 1)) ++ suf =
          "step".data ++ ('-' :: (natDecRepr (n + 1) ++ suf)) := by
        simp [List.append_assoc]
      obtain ⟨v, hv, hvn⟩ :=
        stepNumAt_hit n suf ('-' :: (natDecRepr (n + 1) ++ suf)) (Or.inr (Or.inr rfl))
      have hmem : v ∈ stepScan (lowerStr u) := by
        rw [hdec, List.append_assoc, he]
        exact stepScan_suffix pre _ v (stepNumAt_mem_scan _ v hv)
      rw [scan_single _ v h hmem]
      have hd : decide (v > n) = true := decide_eq_true hvn
      show true = (decide (v > n) || _)
      rw [hd, Bool.true_or]
    · rw [if_neg c2]
      by_cases c3 : containsSub (lowerStr u) ("step/".data ++ natDecRepr (n + 1)) = true
      · rw [if_pos c3]
        obtain ⟨pre, suf, hdec⟩ := (containsSub_iff _ _).1 c3
        have he : ("step/".data ++ natDecRepr (n + 1)) ++ suf =
            "step".data ++ ('/' :: (natDecRepr (n + 1) ++ suf)) := by
          simp [List.append_assoc]
        obtain ⟨v, hv, hvn⟩ :=
          stepNumAt_hit n suf ('/' :: (natDecRepr (n + 1) ++ suf)) (Or.inr (Or.inl rfl))
        have hmem : v ∈ stepScan (lowerStr u) := by
          rw [hdec, List.append_assoc, he]
          exact stepScan_suffix pre _ v (stepNumAt_mem_scan _ v hv)
        rw [scan_single _ v h hmem]
        have hd : decide (v > n) = true := decide_eq_true hvn
        show true = (decide (v > n) || _)
        rw [hd, Bool.true_or]
      · rw [if_neg c3]
        by_cases c4 : (n == 30 && completionMarker (lowerStr u)) = true
        · rw [if_pos c4, c4, Bool.or_true]
        · rw [if_neg c4]
          rw [Bool.not_eq_true] at c4
          rw [c4, Bool.or_false]

/-- C1 (witness): the amended theorem applied to the claim's own example
`…/step/7` at step 6, together with the three concrete oracle examples from
the claim. -/
theorem check_progress_agrees_witness :
    ((stepScan (lowerStr "https://app/step/7")).length ≤ 1 ∧
      check_progress "https://app/step/7" 6 = specAdvancedFirst "https://app/step/7" 6) ∧
    check_progress "https://app/step/7" 6 = true ∧
    check_progress "https://app/step/6" 6 = false ∧
    check_progress "https://app/complete" 30 = true :=
  ⟨⟨by decide, check_progress_agrees "https://app/step/7" 6 (by decide)⟩,
    by decide, by decide, by decide⟩

theorem chooseButtonWalk_safe :
    ∀ (conts : List (List BtnM)) (allB : List BtnM) (b : BtnM),
      chooseButtonWalk conts allB = some b → safeBtn b = true := by
  intro conts
  induction conts with
  | nil =>
    intro allB b h
    have hp := List.find?_some h
    simp only [Bool.and_eq_true, Bool.or_eq_true, beq_iff_eq, Bool.not_eq_true'] at hp
    rcases hp with ⟨htrim | htrim, hdis⟩
    · have ht : isTrapLabel (jsTrim b.label) = false := by rw [htrim]; decide
      simp [safeBtn, hdis, ht]
    · have ht : isTrapLabel (jsTrim b.label) = false := by rw [htrim]; decide
      simp [safeBtn, hdis, ht]
  | cons cont rest ih =>
    intro allB b h
    rw [chooseButtonWalk] at h
    match hf : cont.find? eligibleBtn with
    | some b' =>
      rw [hf] at h
      injection h with h
      subst h
      have hp := List.find?_some hf
      simp only [eligibleBtn, Bool.and_eq_true] at hp
      simp [safeBtn, hp.1.1, hp.1.2]
    | none =>
      rw [hf] at h
      match hfl : cont.filter safeBtn with
      | [b'] =>
        rw [hfl] at h
        injection h with h
        subst h
        have hmem : b' ∈ cont.filter safeBtn := by
          rw [hfl]; exact List.mem_singleton.2 rfl
        exact (List.mem_filter.1 hmem).2
      | [] => rw [hfl] at h; exact ih allB b h
      | b1 :: b2 :: bs => rw [hfl] at h; exact ih allB b h

/-- C4 (amended): the agent solver's submission routine (`_fill_and_submit`)
never clicks a decoy-labelled control: whatever button its selection snippet
returns — through the submit-like scan, the sole-safe-button rule, or the
global `Submit` fallback — is enabled and has a non-decoy label.  (The older
`solver.py` `_try_fill_code` lacks the decoy exclusion; see the
counterexample.) -/
theorem fill_and_submit_no_decoy (containers : List (List BtnM)) (allB : List BtnM)
    (b : BtnM) (h : fill_and_submit_choice containers allB = some b) :
    isTrapLabel (jsTrim b.label) = false ∧ b.disabled = false := by
  have hs := chooseButtonWalk_safe _ _ _ h
  simp only [safeBtn, Bool.and_eq_true, Bool.not_eq_true'] at hs
  exact ⟨hs.2, hs.1⟩

/-- C4 (witness): a container whose only enabled control is the decoy-labelled
`Continue to next step`; the routine skips it and clicks the global `Submit`
control instead of the sole reachable in-container control. -/
theorem fill_and_submit_no_decoy_witness :
    fill_and_submit_choice [[BtnM.mk "Continue to next step" false "button"]]
        [BtnM.mk "Submit" false "button"] = some (BtnM.mk "Submit" false "button") ∧
      (isTrapLabel (jsTrim (BtnM.mk "Submit" false "button").label) = false ∧
        (BtnM.mk "Submit" false "button").disabled = false) :=
  ⟨by decide,
    fill_and_submit_no_decoy [[BtnM.mk "Continue to next step" false "button"]]
      [BtnM.mk "Submit" false "button"] (BtnM.mk "Submit" false "button") (by decide)⟩

/-- C4 (counterexample): `solver.py`'s `_try_fill_code` clicks the first
`button[type="submit"]` without any decoy-phrase check, so a trap control
labelled `Continue to next step` with `type="submit"` is clicked by that
submission routine even though its label contains the decoy phrase
`continue`. -/
theorem try_fill_code_decoy_cex :
    try_fill_code_choice [BtnM.mk "Continue to next step" false "submit"] =
        some (BtnM.mk "Continue to next step" false "submit") ∧
      isTrapLabel (jsTrim (BtnM.mk "Continue to next step" false "submit").label) = true :=
  ⟨by decide, by decide⟩

theorem stepOv_core (el : Overlay) : (stepOv el).core = el.core := rfl

theorem stepOv_idem (el : Overlay) : stepOv (stepOv el) = stepOv el := by
  cases el with
  | mk core st =>
    cases st with
    | mk d pe v z =>
      show (⟨core, pass2Style core (ovStyle1 core (pass2Style core (ovStyle1 core ⟨d, pe, v, z⟩)))⟩ : Overlay) =
        ⟨core, pass2Style core (ovStyle1 core ⟨d, pe, v, z⟩)⟩
      by_cases h1 : ovHide core = true <;> by_cases h2 : pass2Fire core = true <;>
        simp [ovStyle1, pass2Style, h1, h2, hideStyle]

theorem clear_popups_state_eq (page : List Overlay) :
    (clear_popups page).2 = page.map stepOv := by
  simp [clear_popups, List.map_map]
  intro a _
  rfl

/-- C6 (amended): on a page whose content is unchanged between the calls,
the second `_clear_popups` call changes nothing further (the style rewrites
are idempotent), but its return value is not the claimed zero: every branch
condition reads only the class attribute, text, buttons and inline background
colour, none of which the first call's `hide` touches, so the second call
reports the same count as the first; in particular it is zero only when the
first call's count was already zero. -/
theorem clear_popups_second_call (page : List Overlay) :
    (clear_popups (clear_popups page).2).2 = (clear_popups page).2 ∧
    (clear_popups (clear_popups page).2).1 = (clear_popups page).1 := by
  constructor
  · rw [clear_popups_state_eq, clear_popups_state_eq, List.map_map]
    apply List.map_congr_left
    intro el _
    exact stepOv_idem el
  · rw [clear_popups_state_eq]
    show (clear_popups (page.map stepOv)).1 = (clear_popups page).1
    simp only [clear_popups, List.map_map]
    rfl

/-- C6 (counterexample): on `cexPopupPage` the first call reports 1 cleared
item and hides the element; the second call, although the page content is
unchanged (the prize text still matches branch 2), again reports 1 — not the
claimed 0. -/
theorem clear_popups_cex :
    (clear_popups cexPopupPage).1 = 1 ∧
    (clear_popups (clear_popups cexPopupPage).2).1 = 1 := by
  refine ⟨by decide, by decide⟩

/-- C9: when the oracle's response text cannot be parsed into a valid action
(malformed JSON, or fields that fail validation), `analyze_page` does not
raise — the model is a total function — and returns the no-op `wait`
action. -/
theorem analyze_page_wait_on_malformed (raw : String)
    (h : analyze_parse raw = none) :
    (analyze_page_action raw).action_type = ActionType.wait := by
  unfold analyze_page_action
  rw [h]

/-- C9 (witness): a concrete malformed reply. -/
theorem analyze_page_wait_on_malformed_witness :
    analyze_parse "I could not find a code on this page." = none ∧
      (analyze_page_action "I could not find a code on this page.").action_type =
        ActionType.wait :=
  ⟨rfl, analyze_page_wait_on_malformed "I could not find a code on this page." rfl⟩

theorem failsFrom_append (f : List String) (t1 t2 : List AgEvent) :
    failsFrom f (t1 ++ t2) = failsFrom (failsFrom f t1) t2 := by
  simp [failsFrom, List.foldl_append]

theorem SubSafeFrom_append (t1 : List AgEvent) :
    ∀ (f : List String) (t2 : List AgEvent),
      SubSafeFrom f (t1 ++ t2) ↔
        SubSafeFrom f t1 ∧ SubSafeFrom (failsFrom f t1) t2 := by
  induction t1 with
  | nil =>
    intro f t2
    show SubSafeFrom f t2 ↔ True ∧ SubSafeFrom f t2
    simp [SubSafeFrom]
  | cons e t1' ih =>
    intro f t2
    cases e with
    | protoSubmit c ok =>
      show (f.contains c = false ∧ SubSafeFrom f (t1' ++ t2)) ↔
        ((f.contains c = false ∧ SubSafeFrom f t1') ∧
          SubSafeFrom (failsFrom f (.protoSubmit c ok :: t1')) t2)
      rw [ih]
      have : failsFrom f (.protoSubmit c ok :: t1') = failsFrom f t1' := rfl
      rw [this]
      tauto
    | recordFail c =>
      show SubSafeFrom (f ++ [c]) (t1' ++ t2) ↔
        (SubSafeFrom (f ++ [c]) t1' ∧ SubSafeFrom (failsFrom f (.recordFail c :: t1')) t2)
      rw [ih]
      have : failsFrom f (.recordFail c :: t1') = failsFrom (f ++ [c]) t1' := rfl
      rw [this]
    | progress b =>
      show SubSafeFrom f (t1' ++ t2) ↔
        (SubSafeFrom f t1' ∧ SubSafeFrom (failsFrom f (.progress b :: t1')) t2)
      rw [ih]
      exact Iff.rfl
    | clearPop =>
      show SubSafeFrom f (t1' ++ t2) ↔
        (SubSafeFrom f t1' ∧ SubSafeFrom (failsFrom f (.clearPop :: t1')) t2)
      rw [ih]
      exact Iff.rfl
    | directFill c =>
      show SubSafeFrom f (t1' ++ t2) ↔
        (SubSafeFrom f t1' ∧ SubSafeFrom (failsFrom f (.directFill c :: t1')) t2)
      rw [ih]
      exact Iff.rfl
    | oracleCall k =>
      show SubSafeFrom f (t1' ++ t2) ↔
        (SubSafeFrom f t1' ∧ SubSafeFrom (failsFrom f (.oracleCall k :: t1')) t2)
      rw [ih]
      exact Iff.rfl
    | execAct =>
      show SubSafeFrom f (t1' ++ t2) ↔
        (SubSafeFrom f t1' ∧ SubSafeFrom (failsFrom f (.execAct :: t1')) t2)
      rw [ih]
      exact Iff.rfl
    | stateReset =>
      show SubSafeFrom f (t1' ++ t2) ↔
        (SubSafeFrom f t1' ∧ SubSafeFrom (failsFrom f (.stateReset :: t1')) t2)
      rw [ih]
      exact Iff.rfl
    | handler nm =>
      show SubSafeFrom f (t1' ++ t2) ↔
        (SubSafeFrom f t1' ∧ SubSafeFrom (failsFrom f (.handler nm :: t1')) t2)
      rw [ih]
      exact Iff.rfl

theorem StOK_push_benign (s : AgSt) (e : AgEvent) (h : StOK s)
    (hrf : ∀ c, e ≠ .recordFail c) (hps : ∀ c b, e ≠ .protoSubmit c b)
    (hsr : e ≠ .stateReset) (hoc : ∀ k, e ≠ .oracleCall k) :
    StOK (pushEF e s) := by
  obtain ⟨h1, h2, h3, h4⟩ := h
  refine ⟨?_, ?_, ?_, ?_⟩
  · show s.failed = failsFrom [] (s.trace ++ [e])
    rw [failsFrom_append]
    have he : failsFrom (failsFrom [] s.trace) [e] = failsFrom [] s.trace := by
      cases e <;> first | rfl | exact absurd rfl (hrf _)
    rw [he]
    exact h1
  · show SubSafeFrom [] (s.trace ++ [e])
    rw [SubSafeFrom_append]
    refine ⟨h2, ?_⟩
    cases e <;> first | trivial | exact absurd rfl (hps _ _)
  · show (s.trace ++ [e]).countP (fun e' => e' == .stateReset) = 0
    rw [List.countP_append, h3]
    have he : List.countP (fun e' => e' == AgEvent.stateReset) [e] = 0 := by
      cases e <;> first | rfl | exact absurd rfl hsr
    rw [he]
  · intro k hk
    rw [show (pushEF e s).trace = s.trace ++ [e] from rfl, List.mem_append] at hk
    rcases hk with hk | hk
    · exact h4 k hk
    · have := List.mem_singleton.1 hk
      exact absurd this.symm (hoc k)

theorem StOK_push_proto (s : AgSt) (c : String) (b : Bool) (h : StOK s)
    (hc : s.failed.contains c = false) :
    StOK (pushEF (.protoSubmit c b) s) := by
  obtain ⟨h1, h2, h3, h4⟩ := h
  refine ⟨?_, ?_, ?_, ?_⟩
  · show s.failed = failsFrom [] (s.trace ++ [.protoSubmit c b])
    rw [failsFrom_append]
    exact h1
  · show SubSafeFrom [] (s.trace ++ [.protoSubmit c b])
    rw [SubSafeFrom_append]
    refine ⟨h2, ?_, trivial⟩
    rw [← h1]
    exact hc
  · show List.countP (fun e' => e' == AgEvent.stateReset)
      (s.trace ++ [AgEvent.protoSubmit c b]) = 0
    rw [List.countP_append, h3]
    rfl
  · intro k hk
    rw [show (pushEF (.protoSubmit c b) s).trace = s.trace ++ [.protoSubmit c b]
      from rfl, List.mem_append] at hk
    rcases hk with hk | hk
    · exact h4 k hk
    · exact AgEvent.noConfusion (List.mem_singleton.1 hk)

theorem StOK_push_oracle (s : AgSt) (k : Nat) (h : StOK s)
    (hk1 : 1 ≤ k) (hk2 : k < 15) : StOK (pushEF (.oracleCall k) s) := by
  obtain ⟨h1, h2, h3, h4⟩ := h
  refine ⟨?_, ?_, ?_, ?_⟩
  · show s.failed = failsFrom [] (s.trace ++ [.oracleCall k])
    rw [failsFrom_append]
    exact h1
  · show SubSafeFrom [] (s.trace ++ [.oracleCall k])
    rw [SubSafeFrom_append]
    exact ⟨h2, trivial⟩
  · show List.countP (fun e' => e' == AgEvent.stateReset)
      (s.trace ++ [AgEvent.oracleCall k]) = 0
    rw [List.countP_append, h3]
    rfl
  · intro k' hk'
    rw [show (pushEF (.oracleCall k) s).trace = s.trace ++ [.oracleCall k]
      from rfl, List.mem_append] at hk'
    rcases hk' with hk' | hk'
    · exact h4 k' hk'
    · have he := List.mem_singleton.1 hk'
      injection he with he
      exact he ▸ ⟨hk1, hk2⟩

theorem StOK_recordFail (s : AgSt) (c : String) (h : StOK s) :
    StOK (recordFailF c s) := by
  obtain ⟨h1, h2, h3, h4⟩ := h
  refine ⟨?_, ?_, ?_, ?_⟩
  · show s.failed ++ [c] = failsFrom [] (s.trace ++ [.recordFail c])
    rw [failsFrom_append, h1]
    rfl
  · show SubSafeFrom [] (s.trace ++ [.recordFail c])
    rw [SubSafeFrom_append]
    exact ⟨h2, trivial⟩
  · show List.countP (fun e' => e' == AgEvent.stateReset)
      (s.trace ++ [AgEvent.recordFail c]) = 0
    rw [List.countP_append, h3]
    rfl
  · intro k hk
    rw [show (recordFailF c s).trace = s.trace ++ [.recordFail c] from rfl,
      List.mem_append] at hk
    rcases hk with hk | hk
    · exact h4 k hk
    · exact AgEvent.noConfusion (List.mem_singleton.1 hk)

theorem StOK_fillSubmit (s : AgSt) (c : String) (h : StOK s)
    (hc : s.failed.contains c = false) :
    StOK (fillSubmitF c s).2 ∧ (fillSubmitF c s).2.failed = s.failed :=
  ⟨StOK_push_proto _ c _ h hc, rfl⟩

theorem contains_false_of_not_mem (l : List String) (c : String) (h : c ∉ l) :
    l.contains c = false := by
  cases hc : l.contains c with
  | false => rfl
  | true =>
    rw [List.contains] at hc
    exact absurd (List.elem_iff.1 hc) h

theorem not_mem_of_contains_false (l : List String) (c : String)
    (h : l.contains c = false) : c ∉ l := by
  intro hm
  have hm2 : List.elem c l = true := List.elem_iff.2 hm
  rw [List.contains] at h
  rw [hm2] at h
  cases h

theorem contains_append_right (l1 l2 : List String) (c : String)
    (h : l2.contains c = true) : (l1 ++ l2).contains c = true := by
  rw [List.contains, List.elem_iff] at *
  exact List.mem_append_right _ h

theorem StOK_clearPop (s : AgSt) (h : StOK s) : StOK (pushEF .clearPop s) :=
  StOK_push_benign s _ h (fun _ h' => AgEvent.noConfusion h')
    (fun _ _ h' => AgEvent.noConfusion h') (fun h' => AgEvent.noConfusion h')
    (fun _ h' => AgEvent.noConfusion h')

theorem StOK_progress (s : AgSt) (b : Bool) (h : StOK s) :
    StOK (pushEF (.progress b) s) :=
  StOK_push_benign s _ h (fun _ h' => AgEvent.noConfusion h')
    (fun _ _ h' => AgEvent.noConfusion h') (fun h' => AgEvent.noConfusion h')
    (fun _ h' => AgEvent.noConfusion h')

theorem StOK_directFill (s : AgSt) (c : String) (h : StOK s) :
    StOK (pushEF (.directFill c) s) :=
  StOK_push_benign s _ h (fun _ h' => AgEvent.noConfusion h')
    (fun _ _ h' => AgEvent.noConfusion h') (fun h' => AgEvent.noConfusion h')
    (fun _ h' => AgEvent.noConfusion h')

theorem StOK_execAct (s : AgSt) (h : StOK s) : StOK (pushEF .execAct s) :=
  StOK_push_benign s _ h (fun _ h' => AgEvent.noConfusion h')
    (fun _ _ h' => AgEvent.noConfusion h') (fun h' => AgEvent.noConfusion h')
    (fun _ h' => AgEvent.noConfusion h')

theorem StOK_handler (s : AgSt) (n : String) (h : StOK s) :
    StOK (pushEF (.handler n) s) :=
  StOK_push_benign s _ h (fun _ h' => AgEvent.noConfusion h')
    (fun _ _ h' => AgEvent.noConfusion h') (fun h' => AgEvent.noConfusion h')
    (fun _ h' => AgEvent.noConfusion h')

theorem checkProgF_StOK (step : Nat) (s : AgSt) (h : StOK s) :
    StOK (checkProgF step s).2 ∧ (checkProgF step s).2.failed = s.failed :=
  ⟨StOK_progress (askUrlF s).2 _ h, rfl⟩

theorem tryCodesF_StOK (step : Nat) (cs : List String) :
    ∀ s : AgSt, StOK s → StOK (tryCodesF step cs s).2 := by
  induction cs with
  | nil => intro s h; exact h
  | cons c rest ih =>
    intro s h
    cases hc : s.failed.contains c with
    | true =>
      show StOK (if s.failed.contains c = true then tryCodesF step rest s
        else _).2
      rw [if_pos hc]
      exact ih s h
    | false =>
      show StOK (if s.failed.contains c = true then tryCodesF step rest s
        else
          let p := fillSubmitF c s
          if p.1 = true then (true, p.2)
          else tryCodesF step rest (recordFailF c p.2)).2
      rw [if_neg (by rw [hc]; exact Bool.false_ne_true)]
      obtain ⟨h1, h2⟩ := StOK_fillSubmit s c h hc
      cases hok : (fillSubmitF c s).1 with
      | true =>
        show StOK (if (fillSubmitF c s).1 = true then (true, (fillSubmitF c s).2)
          else _).2
        rw [if_pos hok]
        exact h1
      | false =>
        show StOK (if (fillSubmitF c s).1 = true then (true, (fillSubmitF c s).2)
          else tryCodesF step rest (recordFailF c (fillSubmitF c s).2)).2
        rw [if_neg (by rw [hok]; exact Bool.false_ne_true)]
        exact ih _ (StOK_recordFail _ c h1)

theorem submitSeqF_StOK (cs : List String) :
    ∀ s : AgSt, StOK s → (∀ c ∈ cs, s.failed.contains c = false) →
      StOK (submitSeqF cs s).2 ∧ (submitSeqF cs s).2.failed = s.failed := by
  induction cs with
  | nil => intro s h _; exact ⟨h, rfl⟩
  | cons c rest ih =>
    intro s h hcs
    obtain ⟨h1, h2⟩ := StOK_fillSubmit s c h (hcs c (List.mem_cons_self c rest))
    cases hok : (fillSubmitF c s).1 with
    | true =>
      show StOK (if (fillSubmitF c s).1 = true then (true, (fillSubmitF c s).2)
          else submitSeqF rest (fillSubmitF c s).2).2 ∧
        (if (fillSubmitF c s).1 = true then (true, (fillSubmitF c s).2)
          else submitSeqF rest (fillSubmitF c s).2).2.failed = s.failed
      rw [if_pos hok]
      exact ⟨h1, h2⟩
    | false =>
      show StOK (if (fillSubmitF c s).1 = true then (true, (fillSubmitF c s).2)
          else submitSeqF rest (fillSubmitF c s).2).2 ∧
        (if (fillSubmitF c s).1 = true then (true, (fillSubmitF c s).2)
          else submitSeqF rest (fillSubmitF c s).2).2.failed = s.failed
      rw [if_neg (by rw [hok]; exact Bool.false_ne_true)]
      have hrest : ∀ c' ∈ rest, (fillSubmitF c s).2.failed.contains c' = false := by
        intro c' hc'
        rw [h2]
        exact hcs c' (List.mem_cons_of_mem c hc')
      obtain ⟨ha, hb⟩ := ih (fillSubmitF c s).2 h1 hrest
      exact ⟨ha, by rw [hb, h2]⟩

theorem enterRetriesF_StOK (step : Nat) (cs : List String) :
    ∀ s : AgSt, StOK s →
      StOK (enterRetriesF step cs s).2 ∧
        (enterRetriesF step cs s).2.failed = s.failed := by
  induction cs with
  | nil => intro s h; exact ⟨h, rfl⟩
  | cons c rest ih =>
    intro s h
    have h1 := StOK_directFill s c h
    obtain ⟨h2, h3⟩ := checkProgF_StOK step (pushEF (.directFill c) s) h1
    cases hok : (checkProgF step (pushEF (.directFill c) s)).1 with
    | true =>
      show StOK (if (checkProgF step (pushEF (.directFill c) s)).1 = true
          then (true, (checkProgF step (pushEF (.directFill c) s)).2)
          else enterRetriesF step rest
            (checkProgF step (pushEF (.directFill c) s)).2).2 ∧
        (if (checkProgF step (pushEF (.directFill c) s)).1 = true
          then (true, (checkProgF step (pushEF (.directFill c) s)).2)
          else enterRetriesF step rest
            (checkProgF step (pushEF (.directFill c) s)).2).2.failed = s.failed
      rw [if_pos hok]
      exact ⟨h2, h3⟩
    | false =>
      show StOK (if (checkProgF step (pushEF (.directFill c) s)).1 = true
          then (true, (checkProgF step (pushEF (.directFill c) s)).2)
          else enterRetriesF step rest
            (checkProgF step (pushEF (.directFill c) s)).2).2 ∧
        (if (checkProgF step (pushEF (.directFill c) s)).1 = true
          then (true, (checkProgF step (pushEF (.directFill c) s)).2)
          else enterRetriesF step rest
            (checkProgF step (pushEF (.directFill c) s)).2).2.failed = s.failed
      rw [if_neg (by rw [hok]; exact Bool.false_ne_true)]
      obtain ⟨ha, hb⟩ := ih _ h2
      refine ⟨ha, ?_⟩
      rw [hb, h3]
      rfl

theorem trapRoundF_StOK (step : Nat) (code : String) (s : AgSt) (h : StOK s) :
    StOK (trapRoundF step code s).2 ∧
      (trapRoundF step code s).2.failed = s.failed :=
  checkProgF_StOK step _ (StOK_directFill _ code (StOK_clearPop s h))

theorem trapInnerF_StOK (step : Nat) (code : String) (k : Nat) :
    ∀ s : AgSt, StOK s →
      StOK (trapInnerF step code k s).2 ∧
        (trapInnerF step code k s).2.failed = s.failed := by
  induction k with
  | zero => intro s h; exact ⟨h, rfl⟩
  | succ k ih =>
    intro s h
    obtain ⟨h1, h2⟩ := trapRoundF_StOK step code s h
    cases hok : (trapRoundF step code s).1 with
    | true =>
      show StOK (if (trapRoundF step code s).1 = true
          then (true, (trapRoundF step code s).2)
          else trapInnerF step code k (trapRoundF step code s).2).2 ∧
        (if (trapRoundF step code s).1 = true
          then (true, (trapRoundF step code s).2)
          else trapInnerF step code k (trapRoundF step code s).2).2.failed
          = s.failed
      rw [if_pos hok]
      exact ⟨h1, h2⟩
    | false =>
      show StOK (if (trapRoundF step code s).1 = true
          then (true, (trapRoundF step code s).2)
          else trapInnerF step code k (trapRoundF step code s).2).2 ∧
        (if (trapRoundF step code s).1 = true
          then (true, (trapRoundF step code s).2)
          else trapInnerF step code k (trapRoundF step code s).2).2.failed
          = s.failed
      rw [if_neg (by rw [hok]; exact Bool.false_ne_true)]
      obtain ⟨ha, hb⟩ := ih _ h1
      exact ⟨ha, by rw [hb, h2]⟩

theorem trapCodesF_StOK (step rounds : Nat) (cs : List String) :
    ∀ s : AgSt, StOK s →
      StOK (trapCodesF step rounds cs s).2 ∧
        (trapCodesF step rounds cs s).2.failed = s.failed := by
  induction cs with
  | nil => intro s h; exact ⟨h, rfl⟩
  | cons c rest ih =>
    intro s h
    obtain ⟨h1, h2⟩ := trapInnerF_StOK step c rounds s h
    cases hok : (trapInnerF step c rounds s).1 with
    | true =>
      show StOK (if (trapInnerF step c rounds s).1 = true
          then (true, (trapInnerF step c rounds s).2)
          else trapCodesF step rounds rest (trapInnerF step c rounds s).2).2 ∧
        (if (trapInnerF step c rounds s).1 = true
          then (true, (trapInnerF step c rounds s).2)
          else trapCodesF step rounds rest
            (trapInnerF step c rounds s).2).2.failed = s.failed
      rw [if_pos hok]
      exact ⟨h1, h2⟩
    | false =>
      show StOK (if (trapInnerF step c rounds s).1 = true
          then (true, (trapInnerF step c rounds s).2)
          else trapCodesF step rounds rest (trapInnerF step c rounds s).2).2 ∧
        (if (trapInnerF step c rounds s).1 = true
          then (true, (trapInnerF step c rounds s).2)
          else trapCodesF step rounds rest
            (trapInnerF step c rounds s).2).2.failed = s.failed
      rw [if_neg (by rw [hok]; exact Bool.false_ne_true)]
      obtain ⟨ha, hb⟩ := ih _ h1
      exact ⟨ha, by rw [hb, h2]⟩

theorem tryTrapButtonsF_StOK (step : Nat) (s : AgSt) (h : StOK s) :
    StOK (tryTrapButtonsF step s).2 ∧
      (tryTrapButtonsF step s).2.failed = s.failed := by
  cases hc : (s.env.nums s.tNum == 0) with
  | true =>
    show StOK (if (s.env.nums s.tNum == 0) = true
        then ((false : Bool), (askNumF s).2)
        else trapCodesF step (min (s.env.nums s.tNum) 40)
          ((askNumF s).2.failed.take 5) (askNumF s).2).2 ∧
      (if (s.env.nums s.tNum == 0) = true
        then ((false : Bool), (askNumF s).2)
        else trapCodesF step (min (s.env.nums s.tNum) 40)
          ((askNumF s).2.failed.take 5) (askNumF s).2).2.failed = s.failed
    rw [if_pos hc]
    exact ⟨h, rfl⟩
  | false =>
    show StOK (if (s.env.nums s.tNum == 0) = true
        then ((false : Bool), (askNumF s).2)
        else trapCodesF step (min (s.env.nums s.tNum) 40)
          ((askNumF s).2.failed.take 5) (askNumF s).2).2 ∧
      (if (s.env.nums s.tNum == 0) = true
        then ((false : Bool), (askNumF s).2)
        else trapCodesF step (min (s.env.nums s.tNum) 40)
          ((askNumF s).2.failed.take 5) (askNumF s).2).2.failed = s.failed
    rw [if_neg (by rw [hc]; exact Bool.false_ne_true)]
    exact trapCodesF_StOK step _ _ _ h

theorem mathPuzzleF_StOK (s : AgSt) (h : StOK s) : StOK (mathPuzzleF s).2 := by
  cases hm : s.env.maths s.tMath with
  | none =>
    show StOK (match s.env.maths s.tMath with
      | none => ((false : Bool), (askMathF s).2)
      | some c =>
        if (askMathF s).2.failed.contains c = true then (false, (askMathF s).2)
        else
          let p := fillSubmitF c (askMathF s).2
          if p.1 = true then (true, p.2) else (false, recordFailF c p.2)).2
    rw [hm]
    exact h
  | some c =>
    show StOK (match s.env.maths s.tMath with
      | none => ((false : Bool), (askMathF s).2)
      | some c =>
        if (askMathF s).2.failed.contains c = true then (false, (askMathF s).2)
        else
          let p := fillSubmitF c (askMathF s).2
          if p.1 = true then (true, p.2) else (false, recordFailF c p.2)).2
    rw [hm]
    cases hc : (askMathF s).2.failed.contains c with
    | true =>
      show StOK (if (askMathF s).2.failed.contains c = true
          then ((false : Bool), (askMathF s).2)
          else
            let p := fillSubmitF c (askMathF s).2
            if p.1 = true then (true, p.2) else (false, recordFailF c p.2)).2
      rw [if_pos hc]
      exact h
    | false =>
      show StOK (if (askMathF s).2.failed.contains c = true
          then ((false : Bool), (askMathF s).2)
          else
            let p := fillSubmitF c (askMathF s).2
            if p.1 = true then (true, p.2) else (false, recordFailF c p.2)).2
      rw [if_neg (by rw [hc]; exact Bool.false_ne_true)]
      obtain ⟨h1, h2⟩ := StOK_fillSubmit (askMathF s).2 c h hc
      cases hok : (fillSubmitF c (askMathF s).2).1 with
      | true =>
        show StOK (if (fillSubmitF c (askMathF s).2).1 = true
            then ((true : Bool), (fillSubmitF c (askMathF s).2).2)
            else (false, recordFailF c (fillSubmitF c (askMathF s).2).2)).2
        rw [if_pos hok]
        exact h1
      | false =>
        show StOK (if (fillSubmitF c (askMathF s).2).1 = true
            then ((true : Bool), (fillSubmitF c (askMathF s).2).2)
            else (false, recordFailF c (fillSubmitF c (askMathF s).2).2)).2
        rw [if_neg (by rw [hok]; exact Bool.false_ne_true)]
        exact StOK_recordFail _ c h1

theorem iteP (b : Bool) (x y : Bool × AgSt) (fl : List String)
    (hx : StOK x.2 ∧ x.2.failed = fl) (hy : StOK y.2 ∧ y.2.failed = fl) :
    StOK (if b = true then x else y).2 ∧
      (if b = true then x else y).2.failed = fl := by
  cases b with
  | true => rw [if_pos rfl]; exact hx
  | false => rw [if_neg Bool.false_ne_true]; exact hy

theorem iteP1 (b : Bool) (x y : Bool × AgSt)
    (hx : StOK x.2) (hy : StOK y.2) : StOK (if b = true then x else y).2 := by
  cases b with
  | true => rw [if_pos rfl]; exact hx
  | false => rw [if_neg Bool.false_ne_true]; exact hy

theorem scrollRank_not_known (cs raw : List String) (c : String)
    (hc : c ∈ scrollRank cs raw) : cs.contains c = false := by
  have h1 : c ∈ List.insertionSort (fun a b => scrollLe a b = true)
      (scrollFilter cs raw) := List.take_subset 5 _ hc
  have h2 : c ∈ scrollFilter cs raw :=
    (List.perm_insertionSort _ _).subset h1
  rw [scrollFilter, List.mem_filter] at h2
  have h3 := h2.2
  simp only [Bool.and_eq_true, Bool.not_eq_true'] at h3
  exact h3.1.2

theorem takeFilter_not_known (cs raw : List String) (c : String)
    (hc : c ∈ (raw.filter (fun c' => !cs.contains c')).take 3) :
    cs.contains c = false := by
  have h2 := List.take_subset 3 _ hc
  rw [List.mem_filter] at h2
  have h3 := h2.2
  rw [Bool.not_eq_true'] at h3
  exact h3

theorem scrollRank_fresh (cs raw fl : List String)
    (hsub : ∀ c, fl.contains c = true → cs.contains c = true) :
    ∀ c ∈ scrollRank cs raw, fl.contains c = false := by
  intro c hc
  cases hfc : fl.contains c with
  | false => rfl
  | true =>
    have hcs := hsub c hfc
    rw [scrollRank_not_known cs raw c hc] at hcs
    exact absurd hcs Bool.false_ne_true

theorem takeFilter_fresh (cs raw fl : List String)
    (hsub : ∀ c, fl.contains c = true → cs.contains c = true) :
    ∀ c ∈ (raw.filter (fun c' => !cs.contains c')).take 3,
      fl.contains c = false := by
  intro c hc
  cases hfc : fl.contains c with
  | false => rfl
  | true =>
    have hcs := hsub c hfc
    rw [takeFilter_not_known cs raw c hc] at hcs
    exact absurd hcs Bool.false_ne_true

theorem scrollPhase5F_StOK (s : AgSt) (h : StOK s) :
    StOK (scrollPhase5F s).2 ∧ (scrollPhase5F s).2.failed = s.failed :=
  ⟨StOK_handler s _ h, rfl⟩

theorem scrollPhase4F_StOK (cs : List String) (s : AgSt) (h : StOK s)
    (hsub : ∀ c, s.failed.contains c = true → cs.contains c = true) :
    StOK (scrollPhase4F cs s).2 ∧ (scrollPhase4F cs s).2.failed = s.failed := by
  have h7 : StOK (pushEF (.handler "scroll_phase4_clicks") s) := StOK_handler s _ h
  refine iteP _ _ _ _ ⟨h7, rfl⟩ ?_
  obtain ⟨hsa, hsb⟩ := submitSeqF_StOK
    (scrollRank cs
      ((askExtraF (askFlagF (pushEF (.handler "scroll_phase4_clicks") s)).2).1))
    ((askExtraF (askFlagF (pushEF (.handler "scroll_phase4_clicks") s)).2).2)
    h7 (scrollRank_fresh cs _ s.failed hsub)
  refine iteP _ _ _ _ ⟨hsa, hsb⟩ ?_
  obtain ⟨hpa, hpb⟩ := scrollPhase5F_StOK _ hsa
  exact ⟨hpa, hpb.trans hsb⟩

theorem scrollStepEF_StOK (step : Nat) (cs : List String) (s : AgSt)
    (h : StOK s)
    (hsub : ∀ c, s.failed.contains c = true → cs.contains c = true) :
    StOK (scrollStepEF step cs s).2 ∧
      (scrollStepEF step cs s).2.failed = s.failed := by
  obtain ⟨hea, heb⟩ := enterRetriesF_StOK step (cs.take 3) s h
  refine iteP _ _ _ _ ⟨hea, heb⟩ ?_
  have hsub' : ∀ c,
      (enterRetriesF step (cs.take 3) s).2.failed.contains c = true →
        cs.contains c = true := by
    intro c hc
    rw [heb] at hc
    exact hsub c hc
  obtain ⟨hpa, hpb⟩ := scrollPhase4F_StOK cs _ hea hsub'
  exact ⟨hpa, hpb.trans heb⟩

theorem scrollStepDF_StOK (step : Nat) (cs : List String) (s : AgSt)
    (h : StOK s)
    (hsub : ∀ c, s.failed.contains c = true → cs.contains c = true) :
    StOK (scrollStepDF step cs s).2 ∧
      (scrollStepDF step cs s).2.failed = s.failed := by
  obtain ⟨hsa, hsb⟩ := submitSeqF_StOK
    (((askExtraF s).1.filter (fun c' => !cs.contains c')).take 3)
    (askExtraF s).2 h (takeFilter_fresh cs (askExtraF s).1 s.failed hsub)
  refine iteP _ _ _ _ ⟨hsa, hsb⟩ ?_
  have hsub' : ∀ c,
      (submitSeqF (((askExtraF s).1.filter (fun c' => !cs.contains c')).take 3)
        (askExtraF s).2).2.failed.contains c = true → cs.contains c = true := by
    intro c hc
    rw [hsb] at hc
    exact hsub c hc
  obtain ⟨hpa, hpb⟩ := scrollStepEF_StOK step cs _ hsa hsub'
  exact ⟨hpa, hpb.trans hsb⟩

theorem scrollPhases13F_StOK (step : Nat) (cs : List String) (s : AgSt)
    (h : StOK s)
    (hsub : ∀ c, s.failed.contains c = true → cs.contains c = true) :
    StOK (scrollPhases13F step cs s).2 ∧
      (scrollPhases13F step cs s).2.failed = s.failed := by
  have h3 : StOK (pushEF (.handler "scroll_phases_1_3") s) := StOK_handler s _ h
  refine iteP _ _ _ _ ⟨h3, rfl⟩ ?_
  obtain ⟨hpa, hpb⟩ := scrollStepDF_StOK step cs
    (askFlagF (pushEF (.handler "scroll_phases_1_3") s)).2 h3 hsub
  exact ⟨hpa, hpb⟩

theorem scrollPhase0F_StOK (step : Nat) (cs : List String) (s : AgSt)
    (h : StOK s)
    (hsub : ∀ c, s.failed.contains c = true → cs.contains c = true) :
    StOK (scrollPhase0F step cs s).2 ∧
      (scrollPhase0F step cs s).2.failed = s.failed := by
  obtain ⟨hsa, hsb⟩ := submitSeqF_StOK
    (scrollRank cs (askExtraF s).1) (askExtraF s).2 h
    (scrollRank_fresh cs (askExtraF s).1 s.failed hsub)
  refine iteP _ _ _ _ ⟨hsa, hsb⟩ ?_
  have hsub' : ∀ c,
      (submitSeqF (scrollRank cs (askExtraF s).1)
        (askExtraF s).2).2.failed.contains c = true → cs.contains c = true := by
    intro c hc
    rw [hsb] at hc
    exact hsub c hc
  obtain ⟨hpa, hpb⟩ := scrollPhases13F_StOK step cs _ hsa hsub'
  exact ⟨hpa, hpb.trans hsb⟩

theorem scrollLastFillF_StOK (cs : List String) (s : AgSt) (h : StOK s) :
    StOK (scrollLastFillF cs s) ∧ (scrollLastFillF cs s).failed = s.failed := by
  simp only [scrollLastFillF]
  cases cs.getLast? with
  | none => exact ⟨h, rfl⟩
  | some c => exact ⟨StOK_directFill s c h, rfl⟩

theorem scrollToFindNavF_StOK (step : Nat) (cs : List String) (s : AgSt)
    (h : StOK s)
    (hsub : ∀ c, s.failed.contains c = true → cs.contains c = true) :
    StOK (scrollToFindNavF step cs s).2 ∧
      (scrollToFindNavF step cs s).2.failed = s.failed := by
  obtain ⟨hla, hlb⟩ := scrollLastFillF_StOK cs s h
  have h0 : StOK (pushEF (.handler "scroll_wheel_phase0") (scrollLastFillF cs s)) :=
    StOK_handler _ _ hla
  refine iteP _ _ _ _ ⟨h0, hlb⟩ ?_
  have hsub' : ∀ c,
      (askFlagF (pushEF (.handler "scroll_wheel_phase0")
        (scrollLastFillF cs s))).2.failed.contains c = true →
        cs.contains c = true := by
    intro c hc
    have hc' : s.failed.contains c = true := by
      rw [← hlb]
      exact hc
    exact hsub c hc'
  obtain ⟨hpa, hpb⟩ := scrollPhase0F_StOK step cs
    (askFlagF (pushEF (.handler "scroll_wheel_phase0")
      (scrollLastFillF cs s))).2 h0 hsub'
  exact ⟨hpa, hpb.trans hlb⟩

theorem iteProp1 (p : Prop) [Decidable p] (x y : Bool × AgSt)
    (hx : StOK x.2) (hy : StOK y.2) : StOK (if p then x else y).2 := by
  by_cases hp : p
  · rw [if_pos hp]; exact hx
  · rw [if_neg hp]; exact hy

theorem itePropH1 (p : Prop) [Decidable p] (x y : Bool × AgSt)
    (hx : p → StOK x.2) (hy : StOK y.2) : StOK (if p then x else y).2 := by
  by_cases hp : p
  · rw [if_pos hp]; exact hx hp
  · rw [if_neg hp]; exact hy

theorem scrollCheckF_StOK (step : Nat) (cs : List String) (s : AgSt)
    (h : StOK s)
    (hsub : ∀ c, s.failed.contains c = true → cs.contains c = true) :
    StOK (if (scrollToFindNavF step cs s).1 = true
      then checkProgF step (scrollToFindNavF step cs s).2
      else ((false : Bool), (scrollToFindNavF step cs s).2)).2 := by
  obtain ⟨ha, _⟩ := scrollToFindNavF_StOK step cs s h hsub
  refine iteProp1 _ _ _ ?_ ha
  exact (checkProgF_StOK step _ ha).1

theorem fastTrapScrollF_StOK (step : Nat) (s : AgSt) (h : StOK s) :
    StOK (fastTrapScrollF step s).2 := by
  refine iteProp1 _ _ _ h ?_
  refine iteProp1 _ _ _ ?_ h
  exact scrollCheckF_StOK step _ _ h (fun c hc => hc)

theorem fastFinalCheckF_StOK (step : Nat) (s : AgSt) (h : StOK s) :
    StOK (fastFinalCheckF step s).2 := by
  obtain ⟨hca, _⟩ := checkProgF_StOK step s h
  refine iteProp1 _ _ _ hca ?_
  exact fastTrapScrollF_StOK step _ hca

theorem fastExtract2F_StOK (step : Nat) (s : AgSt) (h : StOK s) :
    StOK (fastExtract2F step s).2 := by
  have hb : StOK (pushEF (.handler "decoy_hide_and_drag_drop") s) :=
    StOK_handler s _ h
  have htc := tryCodesF_StOK step
    ((askCodesF (pushEF (.handler "decoy_hide_and_drag_drop") s)).1)
    ((askCodesF (pushEF (.handler "decoy_hide_and_drag_drop") s)).2) hb
  refine iteProp1 _ _ _ htc ?_
  exact fastFinalCheckF_StOK step _ htc

theorem fastFreshF_StOK (step : Nat) (s : AgSt) (h : StOK s) :
    StOK (fastFreshF step s).2 := by
  have hb : StOK (pushEF (.handler "delayed_reveal_wait") s) := StOK_handler s _ h
  have htc := tryCodesF_StOK step
    ((askCodesF (pushEF (.handler "delayed_reveal_wait") s)).1)
    ((askCodesF (pushEF (.handler "delayed_reveal_wait") s)).2) hb
  refine iteProp1 _ _ _ htc ?_
  exact fastExtract2F_StOK step _ htc

theorem fastScrollF_StOK (step : Nat) (codes : List String) (s : AgSt)
    (h : StOK s) : StOK (fastScrollF step codes s).2 := by
  have hb : StOK (pushEF
      (.handler "timing_hover_memory_audio_canvas_parts_tabs_video") s) :=
    StOK_handler s _ h
  refine iteProp1 _ _ _ ?_ ?_
  · refine iteProp1 _ _ _ ?_ hb
    exact scrollCheckF_StOK step _ _ hb
      (fun c hc => contains_append_right codes _ c hc)
  · refine fastFreshF_StOK step _ ?_
    refine iteProp1 _ _ _ ?_ hb
    exact scrollCheckF_StOK step _ _ hb
      (fun c hc => contains_append_right codes _ c hc)

theorem fastMathF_StOK (step : Nat) (codes : List String) (s : AgSt)
    (h : StOK s) : StOK (fastMathF step codes s).2 := by
  have hb : StOK (pushEF (.handler "keyboard_sequences") s) := StOK_handler s _ h
  have hm := mathPuzzleF_StOK (pushEF (.handler "keyboard_sequences") s) hb
  refine iteProp1 _ _ _ hm ?_
  exact fastScrollF_StOK step codes _ hm

theorem fastRadioF_StOK (step : Nat) (codes : List String) (s : AgSt)
    (h : StOK s) : StOK (fastRadioF step codes s).2 := by
  have hb : StOK (pushEF (.handler "brute_force_radio") s) := StOK_handler s _ h
  refine iteProp1 _ _ _ hb ?_
  exact fastMathF_StOK step codes _ hb

theorem fastPathF_StOK (step : Nat) (s : AgSt) (h : StOK s) :
    StOK (fastPathF step s).2 := by
  have hb : StOK (pushEF (.handler "scroll_and_reveal_clicks") s) :=
    StOK_handler s _ h
  have htc := tryCodesF_StOK step
    ((askCodesF (pushEF (.handler "scroll_and_reveal_clicks") s)).1)
    ((askCodesF (pushEF (.handler "scroll_and_reveal_clicks") s)).2) hb
  refine iteProp1 _ _ _ htc ?_
  exact fastRadioF_StOK step _ _ htc

theorem replayCodesF_StOK (step : Nat) (s : AgSt) (h : StOK s) :
    StOK (replayCodesF step s).2 := by
  have hb : StOK (pushEF (.handler "audio_canvas_delay_drag_replays") s) :=
    StOK_handler s _ h
  exact tryCodesF_StOK step
    ((askCodesF (pushEF (.handler "audio_canvas_delay_drag_replays") s)).1)
    ((askCodesF (pushEF (.handler "audio_canvas_delay_drag_replays") s)).2) hb

theorem replayHandlersF_StOK (step : Nat) (s : AgSt) (h : StOK s) :
    StOK (replayHandlersF step s).2 := by
  have hb : StOK (pushEF (.handler "replay_scroll_detect") s) :=
    StOK_handler s _ h
  refine iteProp1 _ _ _ ?_ ?_
  · refine iteProp1 _ _ _ ?_ hb
    exact scrollCheckF_StOK step _ _ hb (fun c hc => hc)
  · refine replayCodesF_StOK step _ ?_
    refine iteProp1 _ _ _ ?_ hb
    exact scrollCheckF_StOK step _ _ hb (fun c hc => hc)

theorem agentTail5F_StOK (a : Nat) (s : AgSt) (h : StOK s) :
    StOK (agentTail5F a s).2 := by
  refine iteProp1 _ _ _ ?_ h
  refine iteProp1 _ _ _ ?_ h
  exact StOK_handler _ _ h

theorem agentReplayF_StOK (step a : Nat) (s : AgSt) (h : StOK s) :
    StOK (agentReplayF step a s).2 := by
  have hin : ∀ u : Unit, StOK (if (3 ≤ a && a % 3 == 0) = true
      then replayHandlersF step s else ((false : Bool), s)).2 := by
    intro _
    refine iteProp1 _ _ _ ?_ h
    exact replayHandlersF_StOK step s h
  refine iteProp1 _ _ _ (hin ()) ?_
  exact agentTail5F_StOK a _ (hin ())

theorem agentTrapF_StOK (step a : Nat) (s : AgSt) (h : StOK s) :
    StOK (agentTrapF step a s).2 := by
  have hin : ∀ u : Unit, StOK (if (4 ≤ a && a % 4 == 0 && !s.failed.isEmpty) = true
      then tryTrapButtonsF step s else ((false : Bool), s)).2 := by
    intro _
    refine iteProp1 _ _ _ ?_ h
    exact (tryTrapButtonsF_StOK step s h).1
  refine iteProp1 _ _ _ (hin ()) ?_
  exact agentReplayF_StOK step a _ (hin ())

theorem agentProgressF_StOK (step a : Nat) (s : AgSt) (h : StOK s) :
    StOK (agentProgressF step a s).2 := by
  obtain ⟨hca, _⟩ := checkProgF_StOK step s h
  refine iteProp1 _ _ _ hca ?_
  exact agentTrapF_StOK step a _ hca

theorem agentExecF_StOK (step a : Nat) (s : AgSt) (h : StOK s) :
    StOK (agentExecF step a s).2 := by
  have hb : StOK (pushEF .execAct s) := StOK_execAct s h
  have htc := tryCodesF_StOK step
    ((askCodesF (pushEF .execAct s)).1)
    ((askCodesF (pushEF .execAct s)).2) hb
  refine iteProp1 _ _ _ htc ?_
  exact agentProgressF_StOK step a _ htc

theorem agentOracleSubmitF_StOK (step a : Nat) (s : AgSt) (h : StOK s) :
    StOK (agentOracleSubmitF step a s).2 := by
  simp only [agentOracleSubmitF]
  cases hoa : askOraF s with
  | mk oc s1 =>
    have hs1 : StOK s1 := by
      have : s1 = (askOraF s).2 := by rw [hoa]
      rw [this]
      exact h
    cases oc with
    | none =>
      refine iteProp1 _ _ _ hs1 ?_
      exact agentExecF_StOK step a _ hs1
    | some c0 =>
      have hin : ∀ u : Unit,
          StOK (if ((jsTrim (String.mk (upperChars c0.data))).length == 6 &&
              !s1.failed.contains (jsTrim (String.mk (upperChars c0.data)))) = true
            then
              (if (fillSubmitF (jsTrim (String.mk (upperChars c0.data))) s1).1 = true
                then ((true : Bool),
                  (fillSubmitF (jsTrim (String.mk (upperChars c0.data))) s1).2)
                else (false, recordFailF (jsTrim (String.mk (upperChars c0.data)))
                  (fillSubmitF (jsTrim (String.mk (upperChars c0.data))) s1).2))
            else ((false : Bool), s1)).2 := by
        intro _
        refine itePropH1 _ _ _ ?_ hs1
        intro hg
        simp only [Bool.and_eq_true, Bool.not_eq_true'] at hg
        obtain ⟨hfa, hfb⟩ := StOK_fillSubmit s1 _ hs1 hg.2
        refine iteProp1 _ _ _ hfa ?_
        exact StOK_recordFail _ _ hfa
      refine iteProp1 _ _ _ (hin ()) ?_
      exact agentExecF_StOK step a _ (hin ())

theorem agentAttemptF_StOK (step a : Nat) (s : AgSt) (h : StOK s)
    (h1 : 1 ≤ a) (h15 : a < 15) : StOK (agentAttemptF step a s).2 := by
  have hb : StOK (pushEF (.handler "scroll_position_variation") s) :=
    StOK_handler s _ h
  have ho : StOK (pushEF (.oracleCall a)
      (askCodesF (pushEF (.handler "scroll_position_variation") s)).2) :=
    StOK_push_oracle _ a hb h1 h15
  exact agentOracleSubmitF_StOK step a _ ho

theorem solveStepGoF_StOK (step : Nat) (as : List Nat) :
    ∀ s : AgSt, StOK s → (∀ a ∈ as, a < 15) →
      StOK (solveStepGoF step as s).2 := by
  induction as with
  | nil => intro s h _; exact h
  | cons a rest ih =>
    intro s h has
    obtain ⟨hca, _⟩ := checkProgF_StOK step s h
    refine iteProp1 _ _ _ hca ?_
    have hcp : StOK (pushEF .clearPop (checkProgF step s).2) :=
      StOK_clearPop _ hca
    have hbr : ∀ u : Unit, StOK (if (a == 0) = true
        then fastPathF step (pushEF .clearPop (checkProgF step s).2)
        else agentAttemptF step a (pushEF .clearPop (checkProgF step s).2)).2 := by
      intro _
      by_cases ha0 : (a == 0) = true
      · rw [if_pos ha0]
        exact fastPathF_StOK step _ hcp
      · rw [if_neg ha0]
        have ha1 : 1 ≤ a := by
          cases a with
          | zero => exact absurd rfl ha0
          | succ n => exact Nat.succ_le_succ (Nat.zero_le n)
        exact agentAttemptF_StOK step a _ hcp ha1
          (has a (List.mem_cons_self a rest))
    refine iteProp1 _ _ _ (hbr ()) ?_
    exact ih _ (hbr ()) (fun a' ha' => has a' (List.mem_cons_of_mem a ha'))

theorem initAgSt_StOK (env : AgEnv) : StOK (initAgSt env) :=
  ⟨rfl, trivial, rfl, fun k hk => absurd hk (List.not_mem_nil _)⟩

theorem solve_step_StOK (env : AgEnv) (step : Nat) :
    StOK (solveStepGoF step (List.range 15) (initAgSt env)).2 :=
  solveStepGoF_StOK step (List.range 15) (initAgSt env) (initAgSt_StOK env)
    (fun a ha => List.mem_range.1 ha)

theorem iteSvProp1 (p : Prop) [Decidable p] (x y : Bool × SvSt)
    (hx : SvOK x.2) (hy : SvOK y.2) : SvOK (if p then x else y).2 := by
  by_cases hp : p
  · rw [if_pos hp]; exact hx
  · rw [if_neg hp]; exact hy

theorem iteSvPropH1 (p : Prop) [Decidable p] (x y : Bool × SvSt)
    (hx : p → SvOK x.2) (hy : SvOK y.2) : SvOK (if p then x else y).2 := by
  by_cases hp : p
  · rw [if_pos hp]; exact hx hp
  · rw [if_neg hp]; exact hy

theorem SvOK_push (s : SvSt) (e : SvEvent) (h : SvOK s)
    (hoc : ∀ k, e ≠ .oracleCall k) : SvOK (pushSv e s) := by
  intro k hk
  rw [show (pushSv e s).trace = s.trace ++ [e] from rfl, List.mem_append] at hk
  rcases hk with hk | hk
  · exact h k hk
  · exact absurd (List.mem_singleton.1 hk).symm (hoc k)

theorem SvOK_push_oracle (s : SvSt) (a : Nat) (h : SvOK s)
    (h0 : 0 < a) (h5 : a % 5 = 0) : SvOK (pushSv (.oracleCall a) s) := by
  intro k hk
  rw [show (pushSv (.oracleCall a) s).trace = s.trace ++ [.oracleCall a]
    from rfl, List.mem_append] at hk
  rcases hk with hk | hk
  · exact h k hk
  · have he := List.mem_singleton.1 hk
    injection he with he
    exact he ▸ ⟨h0, h5⟩

theorem svFillLoopF_SvOK (cs : List String) :
    ∀ s : SvSt, SvOK s → SvOK (svFillLoopF cs s).2 := by
  induction cs with
  | nil => intro s h; exact h
  | cons c rest ih =>
    intro s h
    have h1 : SvOK (pushSv (.fillCode c) s) :=
      SvOK_push s _ h (fun _ h' => SvEvent.noConfusion h')
    refine iteSvProp1 _ _ _ h1 ?_
    exact ih _ h1

theorem svOraMatch_SvOK (o : Option String) (t : SvSt) (h : SvOK t) :
    SvOK (match o with | some c => (svFillLoopF [c] t).2 | none => t) := by
  cases o with
  | none => exact h
  | some c => exact svFillLoopF_SvOK [c] t h

theorem svOracleF_SvOK (a : Nat) (s : SvSt) (h : SvOK s) :
    SvOK (svOracleF a s).2 := by
  refine iteSvPropH1 _ _ _ ?_ h
  intro hg
  simp only [Bool.and_eq_true, decide_eq_true_eq] at hg
  have ho : SvOK (pushSv (.oracleCall a) s) :=
    SvOK_push_oracle s a h hg.1 (eq_of_beq hg.2)
  refine SvOK_push _ _ ?_ (fun _ h' => SvEvent.noConfusion h')
  exact svOraMatch_SvOK _ _ ho

theorem svFallbackF_SvOK (a : Nat) (dE f0 : Bool) (s : SvSt) (h : SvOK s) :
    SvOK (svFallbackF a dE f0 s).2 := by
  have hin : ∀ u : Unit, SvOK (if (3 ≤ a && dE && !f0) = true
      then askSvFlag (pushSv (.handler "fallback_strategies") s)
      else ((false : Bool), s)).2 := by
    intro _
    refine iteSvProp1 _ _ _ ?_ h
    exact SvOK_push s _ h (fun _ h' => SvEvent.noConfusion h')
  refine iteSvProp1 _ _ _ (hin ()) ?_
  exact svOracleF_SvOK a _ (hin ())

theorem svRecheckF_SvOK (n a : Nat) (dE f0 : Bool) (s : SvSt) (h : SvOK s) :
    SvOK (svRecheckF n a dE f0 s).2 := by
  have h8 : SvOK (pushSv
      (.progress (check_progress (askSvUrl s).1 n)) (askSvUrl s).2) :=
    SvOK_push _ _ h (fun _ h' => SvEvent.noConfusion h')
  refine iteSvProp1 _ _ _ h8 ?_
  exact svFallbackF_SvOK a dE f0 _ h8

theorem svDomF_SvOK (n a : Nat) (s : SvSt) (h : SvOK s) :
    SvOK (svDomF n a s).2 := by
  have hblank : ∀ u : Unit,
      SvOK (if ((askSvCodes s).1.isEmpty = true)
        then askSvFlag (askSvCodes s).2
        else ((false : Bool), (askSvCodes s).2)).2 := by
    intro _
    exact iteSvProp1 _ _ _ h h
  refine iteSvProp1 _ _ _ (hblank ()) ?_
  have hfill : ∀ u : Unit,
      SvOK (if ((askSvCodes s).1.isEmpty = true)
        then ((false : Bool), (if ((askSvCodes s).1.isEmpty = true)
          then askSvFlag (askSvCodes s).2
          else ((false : Bool), (askSvCodes s).2)).2)
        else svFillLoopF (askSvCodes s).1 (if ((askSvCodes s).1.isEmpty = true)
          then askSvFlag (askSvCodes s).2
          else ((false : Bool), (askSvCodes s).2)).2).2 := by
    intro _
    refine iteSvProp1 _ _ _ (hblank ()) ?_
    exact svFillLoopF_SvOK _ _ (hblank ())
  exact svRecheckF_SvOK n a _ _ _ (hfill ())

theorem svAttemptF_SvOK (n a : Nat) (s : SvSt) (h : SvOK s) :
    SvOK (svAttemptF n a s).2 := by
  have h2 : SvOK (pushSv
      (.progress (check_progress (askSvUrl s).1 n)) (askSvUrl s).2) :=
    SvOK_push _ _ h (fun _ h' => SvEvent.noConfusion h')
  refine iteSvProp1 _ _ _ h2 ?_
  have h3 : SvOK (pushSv (.handler "special_challenges_and_archetype_handlers")
      (pushSv (.progress (check_progress (askSvUrl s).1 n)) (askSvUrl s).2)) :=
    SvOK_push _ _ h2 (fun _ h' => SvEvent.noConfusion h')
  refine iteSvProp1 _ _ _ h3 ?_
  exact svDomF_SvOK n a _ h3

theorem solveChallengeGoF_SvOK (n : Nat) (as : List Nat) :
    ∀ s : SvSt, SvOK s → SvOK (solveChallengeGoF n as s).2 := by
  induction as with
  | nil => intro s h; exact h
  | cons a rest ih =>
    intro s h
    have h1 := svAttemptF_SvOK n a s h
    refine iteSvProp1 _ _ _ h1 ?_
    exact ih _ h1

theorem solve_challenge_SvOK (env : SvEnv) (n : Nat) :
    SvOK (solveChallengeGoF n (List.range 15) (initSvSt env)).2 :=
  solveChallengeGoF_SvOK n (List.range 15) (initSvSt env)
    (fun k hk => absurd hk (List.not_mem_nil _))

theorem all_svCadenceOK_of_SvOK (s : SvSt) (h : SvOK s) :
    s.trace.all svCadenceOK = true := by
  rw [List.all_eq_true]
  intro e he
  cases e with
  | progress b => rfl
  | handler n => rfl
  | fillCode c => rfl
  | execAct => rfl
  | oracleCall k =>
    obtain ⟨h0, h5⟩ := h k he
    show (decide (0 < k) && (k % 5 == 0)) = true
    rw [Bool.and_eq_true]
    refine ⟨decide_eq_true h0, ?_⟩
    rw [h5]
    rfl

theorem all_agOracleInRange_of_bounds (s : AgSt)
    (h : ∀ k, AgEvent.oracleCall k ∈ s.trace → 1 ≤ k ∧ k < 15) :
    s.trace.all agOracleInRange = true := by
  rw [List.all_eq_true]
  intro e he
  cases e with
  | progress b => rfl
  | clearPop => rfl
  | protoSubmit c ok => rfl
  | recordFail c => rfl
  | directFill c => rfl
  | oracleCall k =>
    obtain ⟨h1, h15⟩ := h k he
    show (decide (1 ≤ k) && decide (k < 15)) = true
    rw [Bool.and_eq_true]
    exact ⟨decide_eq_true h1, decide_eq_true h15⟩
  | execAct => rfl
  | stateReset => rfl
  | handler n => rfl

/-- C2 (amended): within one `_solve_step` call, the Submission Protocol
(`_fill_and_submit`) is never invoked on a code that is in the failure
memory as accumulated at that point of the trace, and the failure memory is
created empty at every invocation (`failed_codes: list[str] = []`,
`agent_solver.py` line 65), so a code that failed on one step is eligible
again on the next.  The direct retry paths (trap buttons, Enter retries)
are not covered: they deliberately re-enter failed codes. -/
theorem solve_step_failure_memory (env : AgEnv) (step : Nat) :
    SubSafeFrom [] (solve_step env step).2 ∧ (initAgSt env).failed = [] :=
  ⟨(solve_step_StOK env step).2.1, rfl⟩

/-- C2 (counterexample): the claim says a token recorded in the failure
memory is never submitted again within the same step, but the trap-button
handler (`_try_trap_buttons`, invoked on every fourth attempt with the
failure memory itself) re-enters failed codes on purpose: from the state
right after `AAA111` failed and was recorded — a state satisfying the
dispatcher invariant — attempt 4 re-submits `AAA111`. -/
theorem trap_buttons_resubmit_cex :
    StOK stC2 ∧
    resubmitsAfterFail "AAA111" (agentAttemptF 3 4 stC2).2.trace = true := by
  constructor
  · refine ⟨rfl, ⟨rfl, trivial⟩, rfl, ?_⟩
    intro k hk
    have ht : stC2.trace =
        [.protoSubmit "AAA111" false, .recordFail "AAA111"] := rfl
    rw [ht] at hk
    simp only [List.mem_cons, List.not_mem_nil, or_false] at hk
    rcases hk with h | h <;> exact AgEvent.noConfusion h
  · rfl

/-- C7 (amended): the agent dispatcher performs no state reset at all — no
trace of `_solve_step` contains a `stateReset` event, whatever the
environment; the only navigate-away-and-back recovery in the code base is
the one inside `_try_math_puzzle_challenge` (`solver.py` lines 1813-1841),
performed at most once per handler invocation and triggered by a missing
number input, not by all candidates having failed. -/
theorem solve_step_no_state_reset (env : AgEnv) (step : Nat) :
    (solve_step env step).2.countP (fun e => e == AgEvent.stateReset) = 0 ∧
    (∀ b : Bool, mathPuzzleResets b ≤ 1 ∧ (mathPuzzleResets b = 1 ↔ b = false)) :=
  ⟨(solve_step_StOK env step).2.2.1, by decide⟩

/-- C7 (counterexample): the claimed scenario — every known candidate for
the step has failed at least once — does occur (the guarded submission loop
records all three candidates as failed), yet the dispatcher performs zero
state resets in that run, not exactly one. -/
theorem all_candidates_failed_no_reset_cex :
    failsFrom [] (tryCodesF 3 ["AAA111", "BBB222", "CCC333"]
      (initAgSt envPlain)).2.trace = ["AAA111", "BBB222", "CCC333"] ∧
    (tryCodesF 3 ["AAA111", "BBB222", "CCC333"]
      (initAgSt envPlain)).2.trace.countP
      (fun e => e == AgEvent.stateReset) = 0 :=
  ⟨rfl, rfl⟩

/-- C8 (amended): the brute-force solver (`solver.py` `_solve_challenge`)
does keep a cadence — every oracle call in any of its traces happens on a
positive multiple-of-5 attempt; the agent dispatcher
(`agent_solver.py` `_solve_step`) has no cadence — its oracle calls are
constrained only by the attempt range 1-14, and it invokes the oracle on
every attempt from the first retry on. -/
theorem oracle_call_cadence (envS : SvEnv) (n : Nat) (envA : AgEnv)
    (step : Nat) :
    (solve_challenge envS n).2.all svCadenceOK = true ∧
    (solve_step envA step).2.all agOracleInRange = true :=
  ⟨all_svCadenceOK_of_SvOK _ (solve_challenge_SvOK envS n),
   all_agOracleInRange_of_bounds _ (solve_step_StOK envA step).2.2.2⟩

/-- C8 (counterexample): the agent dispatcher calls the Reasoning Oracle on
two consecutive attempts (1 and 2), so there is no cadence K ≥ 2 for which
it invokes the oracle only every K-th attempt. -/
theorem agent_oracle_consecutive_attempts_cex :
    AgEvent.oracleCall 1 ∈ (agentAttemptF 3 1 (initAgSt envPlain)).2.trace ∧
    AgEvent.oracleCall 2 ∈ (agentAttemptF 3 2 (initAgSt envPlain)).2.trace :=
  ⟨by decide, by decide⟩
